import Mathlib

/-!
# Category façades of the Green API client (package `greenapi`)

A shallow embedding of `account.go`, `groups.go`, `sending.go` and `service.go`.

* A Go result pair `(*APIResponse, error)` is a pair of two `Option`s, so that
  "both nil" and "both non-nil" stay expressible.
* A pointer argument that an option mutates (`r *RequestSendMessage`) is passed in
  and handed back: an option is a function `R → Option GoError × R`.
* The dispatcher behind `GreenAPIInterface` is an arbitrary function of the call it
  receives and of the calls made before it; every façade threads the list of calls
  made so far (`Trace`), and `Request` appends to it.
* The validators, `os.ReadFile` and `mimetype.Detect` live outside these four files
  and are parameters (`Env`).
* A Go `string` is a `String`, that is a string of valid UTF-8. `json.Marshal` replaces
  bytes that are not valid UTF-8 by U+FFFD; a string of valid UTF-8 has none, so the
  encoders below copy string values as they are. Statements about a string "sent
  unmodified" therefore speak of strings of valid UTF-8.
-/

namespace GreenAPI

set_option linter.dupNamespace false

/-! ## Data model -/

/-- A non-nil Go `error` value. -/
structure GoError where
  msg : String
deriving DecidableEq, Repr

/-- One byte of a `[]byte`. -/
abbrev Byte := Fin 256

/-- Modelled from the spec: the `APIResponse` struct, declared outside the four façade
files; the spec gives its shape as
`{ StatusCode int; StatusMessage string; Body []byte; Timestamp time }`. -/
structure APIResponse where
  StatusCode : Int
  StatusMessage : String
  Body : List Byte
  Timestamp : Nat
deriving DecidableEq, Repr

/-- Modelled from the spec: the `mtype` struct handed to `WithSetMimetype`, declared
outside the four façade files; `UploadFile` fills its fields `Mimetype` and `FileName`. -/
structure mtype where
  Mimetype : String
  FileName : String
deriving DecidableEq, Repr

/-- Modelled from the spec: the dispatch options, declared outside the four façade
files; the spec enumerates `WithFormData(bool)`, `WithMediaHost(bool)` and
`WithSetMimetype(contentType, fileName)`. -/
inductive DispatchOption where
  | WithFormData (b : Bool)
  | WithMediaHost (b : Bool)
  | WithSetMimetype (m : mtype)
deriving DecidableEq, Repr

/-- The JSON values that the request structs of this package encode to. -/
inductive JSONValue where
  | null
  | str (s : String)
  | num (n : Int)
  | bool (b : Bool)
  | strs (xs : List String)
deriving DecidableEq, Repr

/-- A JSON object: its members in the order `encoding/json` writes them
(the order of the struct's fields). -/
abbrev JSONObject := List (String × JSONValue)

/-- The `payload []byte` argument of `Request`: the nil slice, the bytes that
`json.Marshal` returned (kept as the document they encode), or raw bytes. -/
inductive Payload where
  | nil
  | json (doc : JSONObject)
  | raw (bytes : List Byte)
deriving DecidableEq, Repr

/-- One call of the dispatcher: `Request(verb, endpoint, payload, options...)`. -/
structure RequestCall where
  verb : String
  endpoint : String
  payload : Payload
  options : List DispatchOption
deriving DecidableEq, Repr

/-- The pair `(*APIResponse, error)` every façade returns. -/
abbrev Result := Option APIResponse × Option GoError

/-- The calls of `Request` made so far, oldest first. -/
abbrev Trace := List RequestCall

/-- The dispatcher interface. Its implementation is not part of the façades: `respond`
is whatever the implementation answers to a call, given the calls made before. -/
structure GreenAPIInterface where
  respond : Trace → RequestCall → Result

/-- The method `Request` of the interface: records the call and returns the answer. -/
def GreenAPIInterface.Request (g : GreenAPIInterface) (verb endpoint : String)
    (payload : Payload) (options : List DispatchOption) (t : Trace) : Result × Trace :=
  (g.respond t ⟨verb, endpoint, payload, options⟩, t ++ [⟨verb, endpoint, payload, options⟩])

/-- What the façades use from outside their files: the three validators of the package
(`ValidateChatId` is variadic), `os.ReadFile` and `mimetype.Detect(..).String()`. -/
structure Env where
  ValidateChatId : List String → Option GoError
  ValidateURL : String → Option GoError
  ValidateMessageLength : String → Nat → Option GoError
  ReadFile : String → Except GoError (List Byte)
  Detect : List Byte → String

/-- The function `filepath.Base` of the Go library (slash-separated paths): the last
element of the path, after trailing slashes are removed; `.` for the empty path and `/`
for a path of slashes only. -/
def filepathBase (path : String) : String :=
  if path = "" then "."
  else
    let stripped := path.toList.reverse.dropWhile (fun ch => ch = '/')
    let last := stripped.takeWhile (fun ch => ch ≠ '/')
    if last = [] then "/" else String.mk last.reverse

/-- The function `json.Marshal` on a request struct whose encoding is `doc`. None of the
request structs of this package holds a value `encoding/json` rejects, so the error
branch the façades test is never taken. -/
def jsonMarshal (doc : JSONObject) : Except GoError Payload :=
  .ok (.json doc)

/-- A member tagged `omitempty` of string type: left out when the string is empty. -/
def omitemptyString (key s : String) : JSONObject :=
  if s = "" then [] else [(key, .str s)]

/-- A member tagged `omitempty` of pointer type: left out when the pointer is nil. -/
def omitemptyPtr {α : Type} (key : String) (p : Option α) (enc : α → JSONValue) : JSONObject :=
  match p with
  | none => []
  | some v => [(key, enc v)]

/-- The loop `for _, o := range options { err := o(r); if err != nil { return nil, err } }`
shared by the four façades that take options: the error of the first option that fails
(if any) and the struct as the loop leaves it. -/
def applyOptions {R : Type} : List (R → Option GoError × R) → R → Option GoError × R
  | [], r => (none, r)
  | o :: rest, r =>
    match o r with
    | (some err, r1) => (some err, r1)
    | (none, r1) => applyOptions rest r1

/-! ## account.go -/

structure AccountCategory where
  GreenAPI : GreenAPIInterface

/-- The pointer fields (`*string`, `*uint`) are `none` for nil; a `uint` is a natural
number (no arithmetic is done on it). -/
structure RequestSetSettings where
  WebhookUrl : Option String
  WebhookUrlToken : Option String
  DelaySendMessagesMilliseconds : Option Nat
  MarkIncomingMessagesReaded : String
  MarkIncomingMessagesReadedOnReply : String
  OutgoingWebhook : String
  OutgoingMessageWebhook : String
  OutgoingAPIMessageWebhook : String
  StateWebhook : String
  IncomingWebhook : String
deriving DecidableEq, Repr

/-- The zero value `RequestSetSettings{}`. -/
def RequestSetSettings.zero : RequestSetSettings :=
  { WebhookUrl := none, WebhookUrlToken := none, DelaySendMessagesMilliseconds := none,
    MarkIncomingMessagesReaded := "", MarkIncomingMessagesReadedOnReply := "",
    OutgoingWebhook := "", OutgoingMessageWebhook := "", OutgoingAPIMessageWebhook := "",
    StateWebhook := "", IncomingWebhook := "" }

def RequestSetSettings.encode (r : RequestSetSettings) : JSONObject :=
  omitemptyPtr "webhookUrl" r.WebhookUrl .str
  ++ omitemptyPtr "webhookUrlToken" r.WebhookUrlToken .str
  ++ omitemptyPtr "delaySendMessagesMilliseconds" r.DelaySendMessagesMilliseconds
      (fun n => .num (Int.ofNat n))
  ++ omitemptyString "markIncomingMessagesReaded" r.MarkIncomingMessagesReaded
  ++ omitemptyString "markIncomingMessagesReadedOnReply" r.MarkIncomingMessagesReadedOnReply
  ++ omitemptyString "outgoingWebhook" r.OutgoingWebhook
  ++ omitemptyString "outgoingMessageWebhook" r.OutgoingMessageWebhook
  ++ omitemptyString "outgoingAPIMessageWebhook" r.OutgoingAPIMessageWebhook
  ++ omitemptyString "stateWebhook" r.StateWebhook
  ++ omitemptyString "incomingWebhook" r.IncomingWebhook

abbrev SetSettingsOption := RequestSetSettings → Option GoError × RequestSetSettings

/-- The string the boolean toggles of `SetSettings` store. -/
def yesNo (b : Bool) : String := if b then "yes" else "no"

def OptionalWebhookUrl (env : Env) (webhookUrl : String) : SetSettingsOption := fun r =>
  match env.ValidateURL webhookUrl with
  | some err => (some err, r)
  | none => (none, { r with WebhookUrl := some webhookUrl })

def OptionalWebhookUrlToken (webhookUrlToken : String) : SetSettingsOption := fun r =>
  (none, { r with WebhookUrlToken := some webhookUrlToken })

def OptionalDelaySendMessages (delaySendMessagesMilliseconds : Nat) : SetSettingsOption :=
  fun r => (none, { r with DelaySendMessagesMilliseconds := some delaySendMessagesMilliseconds })

def OptionalMarkIncomingMessagesRead (markIncomingMessagesReaded : Bool) : SetSettingsOption :=
  fun r =>
    if markIncomingMessagesReaded then (none, { r with MarkIncomingMessagesReaded := "yes" })
    else (none, { r with MarkIncomingMessagesReaded := "no" })

def OptionalMarkIncomingMessagesReadOnReply (markIncomingMessagesReadedOnReply : Bool) :
    SetSettingsOption := fun r =>
  if markIncomingMessagesReadedOnReply then
    (none, { r with MarkIncomingMessagesReadedOnReply := "yes" })
  else (none, { r with MarkIncomingMessagesReadedOnReply := "no" })

def OptionalOutgoingWebhook (outgoingWebhook : Bool) : SetSettingsOption := fun r =>
  if outgoingWebhook then (none, { r with OutgoingWebhook := "yes" })
  else (none, { r with OutgoingWebhook := "no" })

def OptionalOutgoingMessageWebhook (outgoingMessageWebhook : Bool) : SetSettingsOption :=
  fun r =>
    if outgoingMessageWebhook then (none, { r with OutgoingMessageWebhook := "yes" })
    else (none, { r with OutgoingMessageWebhook := "no" })

def OptionalOutgoingAPIMessageWebhook (outgoingAPIMessageWebhook : Bool) : SetSettingsOption :=
  fun r =>
    if outgoingAPIMessageWebhook then (none, { r with OutgoingAPIMessageWebhook := "yes" })
    else (none, { r with OutgoingAPIMessageWebhook := "no" })

def OptionalStateWebhook (stateWebhook : Bool) : SetSettingsOption := fun r =>
  if stateWebhook then (none, { r with StateWebhook := "yes" })
  else (none, { r with StateWebhook := "no" })

def OptionalIncomingWebhook (incomingWebhook : Bool) : SetSettingsOption := fun r =>
  if incomingWebhook then (none, { r with IncomingWebhook := "yes" })
  else (none, { r with IncomingWebhook := "no" })

def AccountCategory.GetSettings (c : AccountCategory) (t : Trace) : Result × Trace :=
  c.GreenAPI.Request "GET" "getSettings" .nil [] t

def AccountCategory.SetSettings (c : AccountCategory) (options : List SetSettingsOption)
    (t : Trace) : Result × Trace :=
  match applyOptions options RequestSetSettings.zero with
  | (some err, _) => ((none, some err), t)
  | (none, r) =>
    match jsonMarshal r.encode with
    | .error err => ((none, some err), t)
    | .ok jsonData => c.GreenAPI.Request "POST" "setSettings" jsonData [] t

def AccountCategory.GetStateInstance (c : AccountCategory) (t : Trace) : Result × Trace :=
  c.GreenAPI.Request "GET" "getStateInstance" .nil [] t

def AccountCategory.GetStatusInstance (c : AccountCategory) (t : Trace) : Result × Trace :=
  c.GreenAPI.Request "GET" "getStatusInstance" .nil [] t

def AccountCategory.Reboot (c : AccountCategory) (t : Trace) : Result × Trace :=
  c.GreenAPI.Request "GET" "reboot" .nil [] t

def AccountCategory.Logout (c : AccountCategory) (t : Trace) : Result × Trace :=
  c.GreenAPI.Request "GET" "logout" .nil [] t

structure RequestStartAuthorization where
  PhoneNumber : Int
deriving DecidableEq, Repr

def RequestStartAuthorization.encode (r : RequestStartAuthorization) : JSONObject :=
  [("phoneNumber", .num r.PhoneNumber)]

def AccountCategory.StartAuthorization (c : AccountCategory) (phoneNumber : Int)
    (t : Trace) : Result × Trace :=
  let r : RequestStartAuthorization := { PhoneNumber := phoneNumber }
  match jsonMarshal r.encode with
  | .error err => ((none, some err), t)
  | .ok jsonData => c.GreenAPI.Request "POST" "startAuthorization" jsonData [] t

structure RequestSendAuthorizationCode where
  Code : String
deriving DecidableEq, Repr

def RequestSendAuthorizationCode.encode (r : RequestSendAuthorizationCode) : JSONObject :=
  [("code", .str r.Code)]

def AccountCategory.SendAuthorizationCode (c : AccountCategory) (code : String)
    (t : Trace) : Result × Trace :=
  let r : RequestSendAuthorizationCode := { Code := code }
  match jsonMarshal r.encode with
  | .error err => ((none, some err), t)
  | .ok jsonData => c.GreenAPI.Request "POST" "sendAuthorizationCode" jsonData [] t

structure RequestSetProfilePicture where
  File : String
deriving DecidableEq, Repr

def RequestSetProfilePicture.encode (r : RequestSetProfilePicture) : JSONObject :=
  [("file", .str r.File)]

def AccountCategory.SetProfilePicture (c : AccountCategory) (filepath : String)
    (t : Trace) : Result × Trace :=
  let r : RequestSetProfilePicture := { File := filepath }
  match jsonMarshal r.encode with
  | .error err => ((none, some err), t)
  | .ok jsonData =>
    c.GreenAPI.Request "POST" "setProfilePicture" jsonData [.WithFormData true] t

def AccountCategory.GetAccountSettings (c : AccountCategory) (t : Trace) : Result × Trace :=
  c.GreenAPI.Request "GET" "getAccountSettings" .nil [] t

/-! ## groups.go -/

structure GroupsCategory where
  GreenAPI : GreenAPIInterface

/-- The field `ChatIds []string` is `none` for the nil slice. -/
structure RequestCreateGroup where
  GroupName : String
  ChatIds : Option (List String)
deriving DecidableEq, Repr

/-- Neither member is tagged `omitempty`; a nil slice is written as `null`. -/
def RequestCreateGroup.encode (r : RequestCreateGroup) : JSONObject :=
  [("groupName", .str r.GroupName),
   ("chatIds", match r.ChatIds with
      | none => .null
      | some ids => .strs ids)]

/-- The loop `for _, chatId := range chatIds { err := ValidateChatId(chatId); ... }` of
`CreateGroup`: the error of the first element the validator rejects. -/
def validateEachChatId (env : Env) : List String → Option GoError
  | [] => none
  | chatId :: rest =>
    match env.ValidateChatId [chatId] with
    | some err => some err
    | none => validateEachChatId env rest

/-- The argument `chatIds []string` is `none` for the nil slice, which the loop ranges
over like the empty one. -/
def GroupsCategory.CreateGroup (env : Env) (c : GroupsCategory) (groupName : String)
    (chatIds : Option (List String)) (t : Trace) : Result × Trace :=
  match validateEachChatId env (chatIds.getD []) with
  | some err => ((none, some err), t)
  | none =>
    let r : RequestCreateGroup := { GroupName := groupName, ChatIds := chatIds }
    match jsonMarshal r.encode with
    | .error err => ((none, some err), t)
    | .ok jsonData => c.GreenAPI.Request "POST" "createGroup" jsonData [] t

structure RequestUpdateGroupName where
  ChatId : String
  GroupName : String
deriving DecidableEq, Repr

def RequestUpdateGroupName.encode (r : RequestUpdateGroupName) : JSONObject :=
  [("chatId", .str r.ChatId), ("groupName", .str r.GroupName)]

def GroupsCategory.UpdateGroupName (env : Env) (c : GroupsCategory)
    (chatId groupName : String) (t : Trace) : Result × Trace :=
  match env.ValidateChatId [chatId] with
  | some err => ((none, some err), t)
  | none =>
    let r : RequestUpdateGroupName := { ChatId := chatId, GroupName := groupName }
    match jsonMarshal r.encode with
    | .error err => ((none, some err), t)
    | .ok jsonData => c.GreenAPI.Request "POST" "updateGroupName" jsonData [] t

structure RequestGetGroupData where
  ChatId : String
deriving DecidableEq, Repr

def RequestGetGroupData.encode (r : RequestGetGroupData) : JSONObject :=
  [("chatId", .str r.ChatId)]

def GroupsCategory.GetGroupData (env : Env) (c : GroupsCategory) (chatId : String)
    (t : Trace) : Result × Trace :=
  match env.ValidateChatId [chatId] with
  | some err => ((none, some err), t)
  | none =>
    let r : RequestGetGroupData := { ChatId := chatId }
    match jsonMarshal r.encode with
    | .error err => ((none, some err), t)
    | .ok jsonData => c.GreenAPI.Request "POST" "getGroupData" jsonData [] t

structure RequestModifyGroupParticipant where
  ChatId : String
  ParticipantChatId : String
deriving DecidableEq, Repr

def RequestModifyGroupParticipant.encode (r : RequestModifyGroupParticipant) : JSONObject :=
  [("chatId", .str r.ChatId), ("participantChatId", .str r.ParticipantChatId)]

def GroupsCategory.AddGroupParticipant (env : Env) (c : GroupsCategory)
    (chatId participantChatId : String) (t : Trace) : Result × Trace :=
  match env.ValidateChatId [chatId, participantChatId] with
  | some err => ((none, some err), t)
  | none =>
    let r : RequestModifyGroupParticipant :=
      { ChatId := chatId, ParticipantChatId := participantChatId }
    match jsonMarshal r.encode with
    | .error err => ((none, some err), t)
    | .ok jsonData => c.GreenAPI.Request "POST" "addGroupParticipant" jsonData [] t

def GroupsCategory.RemoveGroupParticipant (env : Env) (c : GroupsCategory)
    (chatId participantChatId : String) (t : Trace) : Result × Trace :=
  match env.ValidateChatId [chatId, participantChatId] with
  | some err => ((none, some err), t)
  | none =>
    let r : RequestModifyGroupParticipant :=
      { ChatId := chatId, ParticipantChatId := participantChatId }
    match jsonMarshal r.encode with
    | .error err => ((none, some err), t)
    | .ok jsonData => c.GreenAPI.Request "POST" "removeGroupParticipant" jsonData [] t

def GroupsCategory.SetGroupAdmin (env : Env) (c : GroupsCategory)
    (chatId participantChatId : String) (t : Trace) : Result × Trace :=
  match env.ValidateChatId [chatId, participantChatId] with
  | some err => ((none, some err), t)
  | none =>
    let r : RequestModifyGroupParticipant :=
      { ChatId := chatId, ParticipantChatId := participantChatId }
    match jsonMarshal r.encode with
    | .error err => ((none, some err), t)
    | .ok jsonData => c.GreenAPI.Request "POST" "setGroupAdmin" jsonData [] t

def GroupsCategory.RemoveAdmin (env : Env) (c : GroupsCategory)
    (chatId participantChatId : String) (t : Trace) : Result × Trace :=
  match env.ValidateChatId [chatId, participantChatId] with
  | some err => ((none, some err), t)
  | none =>
    let r : RequestModifyGroupParticipant :=
      { ChatId := chatId, ParticipantChatId := participantChatId }
    match jsonMarshal r.encode with
    | .error err => ((none, some err), t)
    | .ok jsonData => c.GreenAPI.Request "POST" "removeAdmin" jsonData [] t

structure RequestSetGroupPicture where
  File : String
  ChatId : String
deriving DecidableEq, Repr

def RequestSetGroupPicture.encode (r : RequestSetGroupPicture) : JSONObject :=
  [("file", .str r.File), ("chatId", .str r.ChatId)]

def GroupsCategory.SetGroupPicture (env : Env) (c : GroupsCategory)
    (filepath chatId : String) (t : Trace) : Result × Trace :=
  match env.ValidateChatId [chatId] with
  | some err => ((none, some err), t)
  | none =>
    let r : RequestSetGroupPicture := { File := filepath, ChatId := chatId }
    match jsonMarshal r.encode with
    | .error err => ((none, some err), t)
    | .ok jsonData =>
      c.GreenAPI.Request "POST" "setGroupPicture" jsonData [.WithFormData true] t

structure RequestLeaveGroup where
  ChatId : String
deriving DecidableEq, Repr

def RequestLeaveGroup.encode (r : RequestLeaveGroup) : JSONObject :=
  [("chatId", .str r.ChatId)]

def GroupsCategory.LeaveGroup (env : Env) (c : GroupsCategory) (chatId : String)
    (t : Trace) : Result × Trace :=
  match env.ValidateChatId [chatId] with
  | some err => ((none, some err), t)
  | none =>
    let r : RequestLeaveGroup := { ChatId := chatId }
    match jsonMarshal r.encode with
    | .error err => ((none, some err), t)
    | .ok jsonData => c.GreenAPI.Request "POST" "leaveGroup" jsonData [] t

/-! ## sending.go -/

structure SendingCategory where
  GreenAPI : GreenAPIInterface

structure RequestSendMessage where
  ChatId : String
  Message : String
  QuotedMessageId : String
  LinkPreview : Option Bool
deriving DecidableEq, Repr

def RequestSendMessage.encode (r : RequestSendMessage) : JSONObject :=
  [("chatId", .str r.ChatId), ("message", .str r.Message)]
  ++ omitemptyString "quotedMessageId" r.QuotedMessageId
  ++ omitemptyPtr "linkPreview" r.LinkPreview .bool

abbrev SendMessageOption := RequestSendMessage → Option GoError × RequestSendMessage

def OptionalQuotedMessageId (quotedMessageId : String) : SendMessageOption := fun r =>
  (none, { r with QuotedMessageId := quotedMessageId })

def OptionalLinkPreview (linkPreview : Bool) : SendMessageOption := fun r =>
  (none, { r with LinkPreview := some linkPreview })

def SendingCategory.SendMessage (env : Env) (c : SendingCategory) (chatId message : String)
    (options : List SendMessageOption) (t : Trace) : Result × Trace :=
  match env.ValidateChatId [chatId] with
  | some err => ((none, some err), t)
  | none =>
    match env.ValidateMessageLength message 20000 with
    | some err => ((none, some err), t)
    | none =>
      let r : RequestSendMessage :=
        { ChatId := chatId, Message := message, QuotedMessageId := "", LinkPreview := none }
      match applyOptions options r with
      | (some err, _) => ((none, some err), t)
      | (none, r) =>
        match jsonMarshal r.encode with
        | .error err => ((none, some err), t)
        | .ok jsonData => c.GreenAPI.Request "POST" "sendMessage" jsonData [] t

structure RequestSendFileByUpload where
  ChatId : String
  File : String
  FileName : String
  Caption : String
  QuotedMessageId : String
deriving DecidableEq, Repr

def RequestSendFileByUpload.encode (r : RequestSendFileByUpload) : JSONObject :=
  [("chatId", .str r.ChatId), ("file", .str r.File), ("fileName", .str r.FileName)]
  ++ omitemptyString "caption" r.Caption
  ++ omitemptyString "quotedMessageId" r.QuotedMessageId

abbrev SendFileByUploadOption :=
  RequestSendFileByUpload → Option GoError × RequestSendFileByUpload

def OptionalCaptionSendUpload (env : Env) (caption : String) : SendFileByUploadOption :=
  fun r =>
    match env.ValidateMessageLength caption 20000 with
    | some err => (some err, r)
    | none => (none, { r with Caption := caption })

def OptionalQuotedMessageIdSendUpload (quotedMessageId : String) : SendFileByUploadOption :=
  fun r => (none, { r with QuotedMessageId := quotedMessageId })

def SendingCategory.SendFileByUpload (env : Env) (c : SendingCategory)
    (chatId filePath fileName : String) (options : List SendFileByUploadOption)
    (t : Trace) : Result × Trace :=
  match env.ValidateChatId [chatId] with
  | some err => ((none, some err), t)
  | none =>
    let r : RequestSendFileByUpload :=
      { ChatId := chatId, FileName := fileName, File := filePath,
        Caption := "", QuotedMessageId := "" }
    match applyOptions options r with
    | (some err, _) => ((none, some err), t)
    | (none, r) =>
      match jsonMarshal r.encode with
      | .error err => ((none, some err), t)
      | .ok jsonData =>
        c.GreenAPI.Request "POST" "sendFileByUpload" jsonData
          [.WithFormData true, .WithMediaHost true] t

structure RequestSendFileByUrl where
  ChatId : String
  UrlFile : String
  FileName : String
  Caption : String
  QuotedMessageId : String
deriving DecidableEq, Repr

def RequestSendFileByUrl.encode (r : RequestSendFileByUrl) : JSONObject :=
  [("chatId", .str r.ChatId), ("urlFile", .str r.UrlFile), ("fileName", .str r.FileName)]
  ++ omitemptyString "caption" r.Caption
  ++ omitemptyString "quotedMessageId" r.QuotedMessageId

abbrev SendFileByUrlOption := RequestSendFileByUrl → Option GoError × RequestSendFileByUrl

def OptionalCaptionSendUrl (env : Env) (caption : String) : SendFileByUrlOption := fun r =>
  match env.ValidateMessageLength caption 20000 with
  | some err => (some err, r)
  | none => (none, { r with Caption := caption })

def OptionalQuotedMessageIdSendUrl (quotedMessageId : String) : SendFileByUrlOption :=
  fun r => (none, { r with QuotedMessageId := quotedMessageId })

def SendingCategory.SendFileByUrl (env : Env) (c : SendingCategory)
    (chatId urlFile fileName : String) (options : List SendFileByUrlOption)
    (t : Trace) : Result × Trace :=
  match env.ValidateChatId [chatId] with
  | some err => ((none, some err), t)
  | none =>
    match env.ValidateURL urlFile with
    | some err => ((none, some err), t)
    | none =>
      let r : RequestSendFileByUrl :=
        { ChatId := chatId, UrlFile := urlFile, FileName := fileName,
          Caption := "", QuotedMessageId := "" }
      match applyOptions options r with
      | (some err, _) => ((none, some err), t)
      | (none, r) =>
        match jsonMarshal r.encode with
        | .error err => ((none, some err), t)
        | .ok jsonData => c.GreenAPI.Request "POST" "sendFileByUrl" jsonData [] t

def SendingCategory.UploadFile (env : Env) (c : SendingCategory) (filePath : String)
    (t : Trace) : Result × Trace :=
  match env.ReadFile filePath with
  | .error err => ((none, some err), t)
  | .ok binary =>
    c.GreenAPI.Request "POST" "uploadFile" (.raw binary)
      [.WithSetMimetype { Mimetype := env.Detect binary, FileName := filepathBase filePath },
       .WithMediaHost true] t

/-! ## service.go -/

structure ServiceCategory where
  GreenAPI : GreenAPIInterface

structure RequestCheckAccount where
  PhoneNumber : Int
deriving DecidableEq, Repr

def RequestCheckAccount.encode (r : RequestCheckAccount) : JSONObject :=
  [("phoneNumber", .num r.PhoneNumber)]

def ServiceCategory.CheckAccount (c : ServiceCategory) (phoneNumber : Int)
    (t : Trace) : Result × Trace :=
  let r : RequestCheckAccount := { PhoneNumber := phoneNumber }
  match jsonMarshal r.encode with
  | .error err => ((none, some err), t)
  | .ok jsonData => c.GreenAPI.Request "POST" "CheckAccount" jsonData [] t

structure RequestGetAvatar where
  ChatId : String
deriving DecidableEq, Repr

def RequestGetAvatar.encode (r : RequestGetAvatar) : JSONObject :=
  [("chatId", .str r.ChatId)]

def ServiceCategory.GetAvatar (env : Env) (c : ServiceCategory) (chatId : String)
    (t : Trace) : Result × Trace :=
  match env.ValidateChatId [chatId] with
  | some err => ((none, some err), t)
  | none =>
    let r : RequestGetAvatar := { ChatId := chatId }
    match jsonMarshal r.encode with
    | .error err => ((none, some err), t)
    | .ok jsonData => c.GreenAPI.Request "POST" "getAvatar" jsonData [] t

def ServiceCategory.GetContacts (c : ServiceCategory) (t : Trace) : Result × Trace :=
  c.GreenAPI.Request "GET" "getContacts" .nil [] t

structure RequestGetContactInfo where
  ChatId : String
deriving DecidableEq, Repr

def RequestGetContactInfo.encode (r : RequestGetContactInfo) : JSONObject :=
  [("chatId", .str r.ChatId)]

def ServiceCategory.GetContactInfo (env : Env) (c : ServiceCategory) (chatId : String)
    (t : Trace) : Result × Trace :=
  match env.ValidateChatId [chatId] with
  | some err => ((none, some err), t)
  | none =>
    let r : RequestGetContactInfo := { ChatId := chatId }
    match jsonMarshal r.encode with
    | .error err => ((none, some err), t)
    | .ok jsonData => c.GreenAPI.Request "POST" "getContactInfo" jsonData [] t

/-! ## Every façade operation at once -/

/-- One call of a façade operation: the operation and its arguments. -/
inductive Invocation where
  | GetSettings
  | SetSettings (options : List SetSettingsOption)
  | GetStateInstance
  | GetStatusInstance
  | Reboot
  | Logout
  | StartAuthorization (phoneNumber : Int)
  | SendAuthorizationCode (code : String)
  | SetProfilePicture (filepath : String)
  | GetAccountSettings
  | CreateGroup (groupName : String) (chatIds : Option (List String))
  | UpdateGroupName (chatId groupName : String)
  | GetGroupData (chatId : String)
  | AddGroupParticipant (chatId participantChatId : String)
  | RemoveGroupParticipant (chatId participantChatId : String)
  | SetGroupAdmin (chatId participantChatId : String)
  | RemoveAdmin (chatId participantChatId : String)
  | SetGroupPicture (filepath chatId : String)
  | LeaveGroup (chatId : String)
  | SendMessage (chatId message : String) (options : List SendMessageOption)
  | SendFileByUpload (chatId filePath fileName : String)
      (options : List SendFileByUploadOption)
  | SendFileByUrl (chatId urlFile fileName : String) (options : List SendFileByUrlOption)
  | UploadFile (filePath : String)
  | CheckAccount (phoneNumber : Int)
  | GetAvatar (chatId : String)
  | GetContacts
  | GetContactInfo (chatId : String)

/-- Runs the façade method an invocation names, every category holding the same
dispatcher `g`. -/
def run (env : Env) (g : GreenAPIInterface) : Invocation → Trace → Result × Trace
  | .GetSettings => AccountCategory.GetSettings ⟨g⟩
  | .SetSettings options => AccountCategory.SetSettings ⟨g⟩ options
  | .GetStateInstance => AccountCategory.GetStateInstance ⟨g⟩
  | .GetStatusInstance => AccountCategory.GetStatusInstance ⟨g⟩
  | .Reboot => AccountCategory.Reboot ⟨g⟩
  | .Logout => AccountCategory.Logout ⟨g⟩
  | .StartAuthorization phoneNumber => AccountCategory.StartAuthorization ⟨g⟩ phoneNumber
  | .SendAuthorizationCode code => AccountCategory.SendAuthorizationCode ⟨g⟩ code
  | .SetProfilePicture filepath => AccountCategory.SetProfilePicture ⟨g⟩ filepath
  | .GetAccountSettings => AccountCategory.GetAccountSettings ⟨g⟩
  | .CreateGroup groupName chatIds => GroupsCategory.CreateGroup env ⟨g⟩ groupName chatIds
  | .UpdateGroupName chatId groupName => GroupsCategory.UpdateGroupName env ⟨g⟩ chatId groupName
  | .GetGroupData chatId => GroupsCategory.GetGroupData env ⟨g⟩ chatId
  | .AddGroupParticipant chatId participantChatId =>
    GroupsCategory.AddGroupParticipant env ⟨g⟩ chatId participantChatId
  | .RemoveGroupParticipant chatId participantChatId =>
    GroupsCategory.RemoveGroupParticipant env ⟨g⟩ chatId participantChatId
  | .SetGroupAdmin chatId participantChatId =>
    GroupsCategory.SetGroupAdmin env ⟨g⟩ chatId participantChatId
  | .RemoveAdmin chatId participantChatId =>
    GroupsCategory.RemoveAdmin env ⟨g⟩ chatId participantChatId
  | .SetGroupPicture filepath chatId => GroupsCategory.SetGroupPicture env ⟨g⟩ filepath chatId
  | .LeaveGroup chatId => GroupsCategory.LeaveGroup env ⟨g⟩ chatId
  | .SendMessage chatId message options =>
    SendingCategory.SendMessage env ⟨g⟩ chatId message options
  | .SendFileByUpload chatId filePath fileName options =>
    SendingCategory.SendFileByUpload env ⟨g⟩ chatId filePath fileName options
  | .SendFileByUrl chatId urlFile fileName options =>
    SendingCategory.SendFileByUrl env ⟨g⟩ chatId urlFile fileName options
  | .UploadFile filePath => SendingCategory.UploadFile env ⟨g⟩ filePath
  | .CheckAccount phoneNumber => ServiceCategory.CheckAccount ⟨g⟩ phoneNumber
  | .GetAvatar chatId => ServiceCategory.GetAvatar env ⟨g⟩ chatId
  | .GetContacts => ServiceCategory.GetContacts ⟨g⟩
  | .GetContactInfo chatId => ServiceCategory.GetContactInfo env ⟨g⟩ chatId

/-- The validator calls a façade operation has in its body, in the order of the source,
each with what the validator answers on its argument. -/
def validatorChecks (env : Env) : Invocation → List (Option GoError)
  | .CreateGroup _ chatIds => (chatIds.getD []).map (fun chatId => env.ValidateChatId [chatId])
  | .UpdateGroupName chatId _ => [env.ValidateChatId [chatId]]
  | .GetGroupData chatId => [env.ValidateChatId [chatId]]
  | .AddGroupParticipant chatId participantChatId =>
    [env.ValidateChatId [chatId, participantChatId]]
  | .RemoveGroupParticipant chatId participantChatId =>
    [env.ValidateChatId [chatId, participantChatId]]
  | .SetGroupAdmin chatId participantChatId =>
    [env.ValidateChatId [chatId, participantChatId]]
  | .RemoveAdmin chatId participantChatId => [env.ValidateChatId [chatId, participantChatId]]
  | .SetGroupPicture _ chatId => [env.ValidateChatId [chatId]]
  | .LeaveGroup chatId => [env.ValidateChatId [chatId]]
  | .SendMessage chatId message _ =>
    [env.ValidateChatId [chatId], env.ValidateMessageLength message 20000]
  | .SendFileByUpload chatId _ _ _ => [env.ValidateChatId [chatId]]
  | .SendFileByUrl chatId urlFile _ _ => [env.ValidateChatId [chatId], env.ValidateURL urlFile]
  | .GetAvatar chatId => [env.ValidateChatId [chatId]]
  | .GetContactInfo chatId => [env.ValidateChatId [chatId]]
  | _ => []

/-- The first error in a list of answers, if there is one. -/
def firstError : List (Option GoError) → Option GoError
  | [] => none
  | some err :: _ => some err
  | none :: rest => firstError rest

/-- The options of a list succeed one after another: started on `r0`, each returns a nil
error, and the last leaves `r1`. -/
inductive Applied {R : Type} : List (R → Option GoError × R) → R → R → Prop where
  | nil (r : R) : Applied [] r r
  | cons (o : R → Option GoError × R) (rest : List (R → Option GoError × R)) (r0 r1 r2 : R) :
      o r0 = (none, r1) → Applied rest r1 r2 → Applied (o :: rest) r0 r2

/-- The struct `SendMessage` builds before its options loop. -/
def RequestSendMessage.start (chatId message : String) : RequestSendMessage :=
  { ChatId := chatId, Message := message, QuotedMessageId := "", LinkPreview := none }

/-- The struct `SendFileByUpload` builds before its options loop. -/
def RequestSendFileByUpload.start (chatId filePath fileName : String) :
    RequestSendFileByUpload :=
  { ChatId := chatId, FileName := fileName, File := filePath, Caption := "",
    QuotedMessageId := "" }

/-- The struct `SendFileByUrl` builds before its options loop. -/
def RequestSendFileByUrl.start (chatId urlFile fileName : String) : RequestSendFileByUrl :=
  { ChatId := chatId, UrlFile := urlFile, FileName := fileName, Caption := "",
    QuotedMessageId := "" }

/-- Exactly one component of a result pair is non-nil. -/
def ExactlyOne (r : Result) : Prop :=
  (r.1 ≠ none ∧ r.2 = none) ∨ (r.1 = none ∧ r.2 ≠ none)

/-- A sample environment for concrete instances: a chat id list is rejected when one of
its ids is empty, a URL when it does not start with `http`, a string when it is longer
than the maximum; the only readable file is `/tmp/a.png`. -/
def sampleEnv : Env :=
  { ValidateChatId := fun chatIds =>
      if chatIds.all (fun chatId => decide (chatId ≠ "")) then none
      else some ⟨"chatId is empty"⟩
    ValidateURL := fun url =>
      if url.toList.take 4 = ['h', 't', 't', 'p'] then none else some ⟨"malformed url"⟩
    ValidateMessageLength := fun s max =>
      if s.length ≤ max then none else some ⟨"message is too long"⟩
    ReadFile := fun path =>
      if path = "/tmp/a.png" then .ok [137, 80, 78, 71] else .error ⟨"no such file"⟩
    Detect := fun bytes => if bytes.take 4 = [137, 80, 78, 71] then "image/png"
      else "application/octet-stream" }

/-- A sample dispatcher: answers every call with status 200 and an empty body. -/
def sampleAPI : GreenAPIInterface :=
  { respond := fun _ _ => (some ⟨200, "OK", [], 0⟩, none) }

/-- The error the options loop of an operation ends with, started on the struct the
operation builds; nil for an operation without options. -/
def optionsError : Invocation → Option GoError
  | .SetSettings options => (applyOptions options RequestSetSettings.zero).1
  | .SendMessage chatId message options =>
    (applyOptions options (RequestSendMessage.start chatId message)).1
  | .SendFileByUpload chatId filePath fileName options =>
    (applyOptions options (RequestSendFileByUpload.start chatId filePath fileName)).1
  | .SendFileByUrl chatId urlFile fileName options =>
    (applyOptions options (RequestSendFileByUrl.start chatId urlFile fileName)).1
  | _ => none

/-- The error of the file read an operation starts with: that of `os.ReadFile` for
`UploadFile`, nil for every other operation, which reads no file itself. -/
def readError (env : Env) : Invocation → Option GoError
  | .UploadFile filePath =>
    match env.ReadFile filePath with
    | .error err => some err
    | .ok _ => none
  | _ => none

/-- Whether the payload is a JSON object with a member named `key`. -/
def Payload.hasKey (p : Payload) (key : String) : Bool :=
  match p with
  | .json doc => doc.any (fun member => member.1 == key)
  | _ => false

/-- The operations whose call of `Request` passes `WithFormData(true)`. -/
def passesFormData : Invocation → Bool
  | .SetProfilePicture _ => true
  | .SetGroupPicture _ _ => true
  | .SendFileByUpload _ _ _ _ => true
  | _ => false

/-- An option the package provides for `SendFileByUpload`: one of its two constructors
applied to an argument. -/
def IsSendFileByUploadOption (env : Env) (o : SendFileByUploadOption) : Prop :=
  (∃ caption, o = OptionalCaptionSendUpload env caption) ∨
  (∃ quotedMessageId, o = OptionalQuotedMessageIdSendUpload quotedMessageId)

/-- The operations whose call of `Request` passes `WithMediaHost(true)`. -/
def passesMediaHost : Invocation → Bool
  | .SendFileByUpload _ _ _ _ => true
  | .UploadFile _ => true
  | _ => false

/-- The value of the member named `key` of a JSON payload, if it has one. -/
def Payload.member (p : Payload) (key : String) : Option JSONValue :=
  match p with
  | .json doc => doc.lookup key
  | _ => none

/-- An option the package provides for `SendMessage`: one of its two constructors applied
to an argument. -/
def IsSendMessageOption (o : SendMessageOption) : Prop :=
  (∃ quotedMessageId, o = OptionalQuotedMessageId quotedMessageId) ∨
  (∃ linkPreview, o = OptionalLinkPreview linkPreview)

/-- Modelled from the spec: the client struct `GreenAPI`, declared outside the four
façade files. The spec names its construction parameters (API host base URL, media host
base URL, instance id, access token); the field names are those the example programs
use. -/
structure GreenAPI where
  APIURL : String
  MediaURL : String
  IDInstance : String
  APITokenInstance : String
deriving DecidableEq, Repr

/-- Modelled from the spec: the per-call settings the dispatch options configure
("use form-data encoding", "use media host instead of API host", "override
content-type/filename metadata"); the dispatcher's own struct is not part of the façade
files. -/
structure requestOptions where
  formData : Bool
  mediaHost : Bool
  mimetype : Option mtype
deriving DecidableEq, Repr

/-- Modelled from the spec: what one dispatch option does to the per-call settings; each
sets the one setting it is named after. -/
def DispatchOption.apply : DispatchOption → requestOptions → requestOptions
  | .WithFormData b, ro => { ro with formData := b }
  | .WithMediaHost b, ro => { ro with mediaHost := b }
  | .WithSetMimetype m, ro => { ro with mimetype := some m }

/-- Modelled from the spec: the settings of a call, obtained by applying its dispatch
options in argument order to the defaults (JSON encoding, API host, no mimetype
override). -/
def resolveOptions (options : List DispatchOption) : requestOptions :=
  options.foldl (fun ro o => o.apply ro) { formData := false, mediaHost := false, mimetype := none }

/-- Modelled from the spec: host resolution and URL construction of `Request`, whose
implementation is not part of the façade files. "By default requests target the API host;
if the use-media-host option is set, the media host is used instead", and the URL is
`{host}/waInstance{instanceId}/{endpoint}/{token}`. -/
def GreenAPI.resolveURL (a : GreenAPI) (endpoint : String) (options : List DispatchOption) :
    String :=
  let host := if (resolveOptions options).mediaHost then a.MediaURL else a.APIURL
  host ++ "/waInstance" ++ a.IDInstance ++ "/" ++ endpoint ++ "/" ++ a.APITokenInstance

/-- The name of the façade method an invocation calls. -/
def methodName : Invocation → String
  | .GetSettings => "GetSettings"
  | .SetSettings _ => "SetSettings"
  | .GetStateInstance => "GetStateInstance"
  | .GetStatusInstance => "GetStatusInstance"
  | .Reboot => "Reboot"
  | .Logout => "Logout"
  | .StartAuthorization _ => "StartAuthorization"
  | .SendAuthorizationCode _ => "SendAuthorizationCode"
  | .SetProfilePicture _ => "SetProfilePicture"
  | .GetAccountSettings => "GetAccountSettings"
  | .CreateGroup _ _ => "CreateGroup"
  | .UpdateGroupName _ _ => "UpdateGroupName"
  | .GetGroupData _ => "GetGroupData"
  | .AddGroupParticipant _ _ => "AddGroupParticipant"
  | .RemoveGroupParticipant _ _ => "RemoveGroupParticipant"
  | .SetGroupAdmin _ _ => "SetGroupAdmin"
  | .RemoveAdmin _ _ => "RemoveAdmin"
  | .SetGroupPicture _ _ => "SetGroupPicture"
  | .LeaveGroup _ => "LeaveGroup"
  | .SendMessage _ _ _ => "SendMessage"
  | .SendFileByUpload _ _ _ _ => "SendFileByUpload"
  | .SendFileByUrl _ _ _ _ => "SendFileByUrl"
  | .UploadFile _ => "UploadFile"
  | .CheckAccount _ => "CheckAccount"
  | .GetAvatar _ => "GetAvatar"
  | .GetContacts => "GetContacts"
  | .GetContactInfo _ => "GetContactInfo"

/-- A name with its first letter in lower case. -/
def lowerFirst (name : String) : String :=
  match name.toList with
  | [] => ""
  | ch :: rest => String.mk (ch.toLower :: rest)

/-- An option of the package for `SendMessage`, by constructor and argument. -/
inductive SendMessageArg where
  | QuotedMessageId (quotedMessageId : String)
  | LinkPreview (linkPreview : Bool)
deriving DecidableEq, Repr

/-- The option a `SendMessageArg` stands for. -/
def SendMessageArg.option : SendMessageArg → SendMessageOption
  | .QuotedMessageId quotedMessageId => OptionalQuotedMessageId quotedMessageId
  | .LinkPreview linkPreview => OptionalLinkPreview linkPreview

/-- The argument of the last `OptionalQuotedMessageId` of a list of options, the empty
string when the list has none. -/
def lastQuotedMessageId (args : List SendMessageArg) : String :=
  args.foldl
    (fun acc a =>
      match a with
      | .QuotedMessageId quotedMessageId => quotedMessageId
      | .LinkPreview _ => acc)
    ""

/-- An option of the package for `SetSettings`, by constructor and argument. -/
inductive SetSettingsArg where
  | WebhookUrl (webhookUrl : String)
  | WebhookUrlToken (webhookUrlToken : String)
  | DelaySendMessages (delaySendMessagesMilliseconds : Nat)
  | MarkIncomingMessagesRead (b : Bool)
  | MarkIncomingMessagesReadOnReply (b : Bool)
  | OutgoingWebhook (b : Bool)
  | OutgoingMessageWebhook (b : Bool)
  | OutgoingAPIMessageWebhook (b : Bool)
  | StateWebhook (b : Bool)
  | IncomingWebhook (b : Bool)
deriving DecidableEq, Repr

/-- The option a `SetSettingsArg` stands for. -/
def SetSettingsArg.option (env : Env) : SetSettingsArg → SetSettingsOption
  | .WebhookUrl webhookUrl => OptionalWebhookUrl env webhookUrl
  | .WebhookUrlToken webhookUrlToken => OptionalWebhookUrlToken webhookUrlToken
  | .DelaySendMessages n => OptionalDelaySendMessages n
  | .MarkIncomingMessagesRead b => OptionalMarkIncomingMessagesRead b
  | .MarkIncomingMessagesReadOnReply b => OptionalMarkIncomingMessagesReadOnReply b
  | .OutgoingWebhook b => OptionalOutgoingWebhook b
  | .OutgoingMessageWebhook b => OptionalOutgoingMessageWebhook b
  | .OutgoingAPIMessageWebhook b => OptionalOutgoingAPIMessageWebhook b
  | .StateWebhook b => OptionalStateWebhook b
  | .IncomingWebhook b => OptionalIncomingWebhook b

/-- The JSON tag of the field of `RequestSetSettings` that the option sets. -/
def SetSettingsArg.key : SetSettingsArg → String
  | .WebhookUrl _ => "webhookUrl"
  | .WebhookUrlToken _ => "webhookUrlToken"
  | .DelaySendMessages _ => "delaySendMessagesMilliseconds"
  | .MarkIncomingMessagesRead _ => "markIncomingMessagesReaded"
  | .MarkIncomingMessagesReadOnReply _ => "markIncomingMessagesReadedOnReply"
  | .OutgoingWebhook _ => "outgoingWebhook"
  | .OutgoingMessageWebhook _ => "outgoingMessageWebhook"
  | .OutgoingAPIMessageWebhook _ => "outgoingAPIMessageWebhook"
  | .StateWebhook _ => "stateWebhook"
  | .IncomingWebhook _ => "incomingWebhook"

/-- The payload the dispatcher's contract names for each operation: the nil slice for an
operation that only reads (verb `GET`); the JSON encoding of the operation's request
struct, filled from the arguments and, where the operation takes options, as the options
leave it; for `UploadFile` the bytes read from the file. -/
def contractPayload (env : Env) : Invocation → Payload
  | .GetSettings => .nil
  | .SetSettings options => .json (applyOptions options RequestSetSettings.zero).2.encode
  | .GetStateInstance => .nil
  | .GetStatusInstance => .nil
  | .Reboot => .nil
  | .Logout => .nil
  | .StartAuthorization phoneNumber =>
    .json ({ PhoneNumber := phoneNumber } : RequestStartAuthorization).encode
  | .SendAuthorizationCode code => .json ({ Code := code } : RequestSendAuthorizationCode).encode
  | .SetProfilePicture filepath => .json ({ File := filepath } : RequestSetProfilePicture).encode
  | .GetAccountSettings => .nil
  | .CreateGroup groupName chatIds =>
    .json ({ GroupName := groupName, ChatIds := chatIds } : RequestCreateGroup).encode
  | .UpdateGroupName chatId groupName =>
    .json ({ ChatId := chatId, GroupName := groupName } : RequestUpdateGroupName).encode
  | .GetGroupData chatId => .json ({ ChatId := chatId } : RequestGetGroupData).encode
  | .AddGroupParticipant chatId participantChatId =>
    .json ({ ChatId := chatId, ParticipantChatId := participantChatId } :
      RequestModifyGroupParticipant).encode
  | .RemoveGroupParticipant chatId participantChatId =>
    .json ({ ChatId := chatId, ParticipantChatId := participantChatId } :
      RequestModifyGroupParticipant).encode
  | .SetGroupAdmin chatId participantChatId =>
    .json ({ ChatId := chatId, ParticipantChatId := participantChatId } :
      RequestModifyGroupParticipant).encode
  | .RemoveAdmin chatId participantChatId =>
    .json ({ ChatId := chatId, ParticipantChatId := participantChatId } :
      RequestModifyGroupParticipant).encode
  | .SetGroupPicture filepath chatId =>
    .json ({ File := filepath, ChatId := chatId } : RequestSetGroupPicture).encode
  | .LeaveGroup chatId => .json ({ ChatId := chatId } : RequestLeaveGroup).encode
  | .SendMessage chatId message options =>
    .json (applyOptions options (RequestSendMessage.start chatId message)).2.encode
  | .SendFileByUpload chatId filePath fileName options =>
    .json (applyOptions options
      (RequestSendFileByUpload.start chatId filePath fileName)).2.encode
  | .SendFileByUrl chatId urlFile fileName options =>
    .json (applyOptions options (RequestSendFileByUrl.start chatId urlFile fileName)).2.encode
  | .UploadFile filePath =>
    match env.ReadFile filePath with
    | .ok binary => .raw binary
    | .error _ => .nil
  | .CheckAccount phoneNumber =>
    .json ({ PhoneNumber := phoneNumber } : RequestCheckAccount).encode
  | .GetAvatar chatId => .json ({ ChatId := chatId } : RequestGetAvatar).encode
  | .GetContacts => .nil
  | .GetContactInfo chatId => .json ({ ChatId := chatId } : RequestGetContactInfo).encode

/-! ## Shared lemmas -/

theorem firstError_split (checks pre post : List (Option GoError)) (e : GoError)
    (h : checks = pre ++ some e :: post) (hpre : ∀ x ∈ pre, x = none) :
    firstError checks = some e := by
  subst h
  induction pre with
  | nil => simp [firstError]
  | cons x rest ih =>
    have hx : x = none := hpre x (by simp)
    subst hx
    simpa [firstError] using ih (fun y hy => hpre y (by simp [hy]))

theorem firstError_map (env : Env) (ids : List String) :
    firstError (ids.map (fun chatId => env.ValidateChatId [chatId]))
      = validateEachChatId env ids := by
  induction ids with
  | nil => simp [firstError, validateEachChatId]
  | cons x rest ih =>
    cases hx : env.ValidateChatId [x] <;> simp [firstError, validateEachChatId, hx, ih]

theorem filepathBase_examples :
    filepathBase "/tmp/a.png" = "a.png" ∧ filepathBase "a.png" = "a.png" ∧
    filepathBase "/tmp/dir/" = "dir" ∧ filepathBase "" = "." ∧ filepathBase "//" = "/" := by
  decide

theorem run_shape (env : Env) (g : GreenAPIInterface) (inv : Invocation) (t : Trace) :
    (∃ e, run env g inv t = ((none, some e), t)) ∨
    (∃ c, run env g inv t = (g.respond t c, t ++ [c])) := by
  cases inv <;>
    simp only [run, AccountCategory.GetSettings, AccountCategory.SetSettings,
      AccountCategory.GetStateInstance, AccountCategory.GetStatusInstance,
      AccountCategory.Reboot, AccountCategory.Logout, AccountCategory.StartAuthorization,
      AccountCategory.SendAuthorizationCode, AccountCategory.SetProfilePicture,
      AccountCategory.GetAccountSettings, GroupsCategory.CreateGroup,
      GroupsCategory.UpdateGroupName, GroupsCategory.GetGroupData,
      GroupsCategory.AddGroupParticipant, GroupsCategory.RemoveGroupParticipant,
      GroupsCategory.SetGroupAdmin, GroupsCategory.RemoveAdmin, GroupsCategory.SetGroupPicture,
      GroupsCategory.LeaveGroup, SendingCategory.SendMessage, SendingCategory.SendFileByUpload,
      SendingCategory.SendFileByUrl, SendingCategory.UploadFile, ServiceCategory.CheckAccount,
      ServiceCategory.GetAvatar, ServiceCategory.GetContacts, ServiceCategory.GetContactInfo,
      jsonMarshal, GreenAPIInterface.Request] <;>
    (repeat' split) <;>
    first
      | exact Or.inl ⟨_, rfl⟩
      | exact Or.inr ⟨_, rfl⟩

theorem applyOptions_of_applied {R : Type} (pre : List (R → Option GoError × R)) (r0 r1 : R)
    (h : Applied pre r0 r1) (rest : List (R → Option GoError × R)) :
    applyOptions (pre ++ rest) r0 = applyOptions rest r1 := by
  induction h with
  | nil r => rfl
  | cons o tl a b c hab _ ih => simp [applyOptions, hab, ih]

theorem applyOptions_first_failure {R : Type} (pre post : List (R → Option GoError × R))
    (o : R → Option GoError × R) (r0 r1 r2 : R) (e : GoError)
    (h : Applied pre r0 r1) (ho : o r1 = (some e, r2)) :
    applyOptions (pre ++ o :: post) r0 = (some e, r2) := by
  rw [applyOptions_of_applied pre r0 r1 h]
  simp [applyOptions, ho]

/-! ## C1: a rejecting validator aborts the call -/

/-- C1: for every façade operation and every input on which one of the operation's
validator calls returns an error `e` (the calls before it, in the order of the source,
having returned nil, so that this call is reached): the operation returns `(nil, e)`
and the dispatcher's `Request` is not called (the trace of calls is unchanged). -/
theorem validator_error_returned (env : Env) (g : GreenAPIInterface) (inv : Invocation)
    (t : Trace) (pre post : List (Option GoError)) (e : GoError)
    (h : validatorChecks env inv = pre ++ some e :: post) (hpre : ∀ x ∈ pre, x = none) :
    run env g inv t = ((none, some e), t) := by
  have hf := firstError_split _ pre post e h hpre
  clear h hpre
  cases inv <;>
    simp only [validatorChecks, firstError_map] at hf <;>
    simp only [run, AccountCategory.GetSettings, AccountCategory.SetSettings,
      AccountCategory.GetStateInstance, AccountCategory.GetStatusInstance,
      AccountCategory.Reboot, AccountCategory.Logout, AccountCategory.StartAuthorization,
      AccountCategory.SendAuthorizationCode, AccountCategory.SetProfilePicture,
      AccountCategory.GetAccountSettings, GroupsCategory.CreateGroup,
      GroupsCategory.UpdateGroupName, GroupsCategory.GetGroupData,
      GroupsCategory.AddGroupParticipant, GroupsCategory.RemoveGroupParticipant,
      GroupsCategory.SetGroupAdmin, GroupsCategory.RemoveAdmin, GroupsCategory.SetGroupPicture,
      GroupsCategory.LeaveGroup, SendingCategory.SendMessage, SendingCategory.SendFileByUpload,
      SendingCategory.SendFileByUrl, SendingCategory.UploadFile, ServiceCategory.CheckAccount,
      ServiceCategory.GetAvatar, ServiceCategory.GetContacts, ServiceCategory.GetContactInfo,
      jsonMarshal, GreenAPIInterface.Request] <;>
    (repeat' split) <;>
    simp_all [firstError]

/-- C1 at a concrete input: `SendMessage` to the empty chat id with the sample validators
returns the chat id validator's error and makes no call. -/
theorem validator_error_returned_witness :
    run sampleEnv sampleAPI (.SendMessage "" "Hello" []) []
      = ((none, some ⟨"chatId is empty"⟩), []) :=
  validator_error_returned sampleEnv sampleAPI (.SendMessage "" "Hello" []) []
    [] [none] ⟨"chatId is empty"⟩ (by decide) (by simp)

/-! ## C2: a failing option aborts the call -/

/-- C2: for `SetSettings`, `SendMessage`, `SendFileByUpload` and `SendFileByUrl` and every
list of options `pre ++ o :: post` in which the options of `pre` succeed one after another
and `o` then fails with `e` (the operation's validators having accepted its arguments, so
that the options loop is reached): the loop ends with error `e` and with the struct as `o`
left it, whatever `post` is (no option after `o` is applied), and the operation returns
`(nil, e)` without calling `Request`. -/
theorem option_error_aborts (env : Env) (g : GreenAPIInterface) (t : Trace) (e : GoError) :
    (∀ (pre post : List SetSettingsOption) (o : SetSettingsOption)
        (r1 r2 : RequestSetSettings),
        Applied pre RequestSetSettings.zero r1 → o r1 = (some e, r2) →
        applyOptions (pre ++ o :: post) RequestSetSettings.zero = (some e, r2) ∧
        AccountCategory.SetSettings ⟨g⟩ (pre ++ o :: post) t = ((none, some e), t)) ∧
    (∀ (chatId message : String) (pre post : List SendMessageOption) (o : SendMessageOption)
        (r1 r2 : RequestSendMessage),
        env.ValidateChatId [chatId] = none → env.ValidateMessageLength message 20000 = none →
        Applied pre (RequestSendMessage.start chatId message) r1 → o r1 = (some e, r2) →
        applyOptions (pre ++ o :: post) (RequestSendMessage.start chatId message)
          = (some e, r2) ∧
        SendingCategory.SendMessage env ⟨g⟩ chatId message (pre ++ o :: post) t
          = ((none, some e), t)) ∧
    (∀ (chatId filePath fileName : String) (pre post : List SendFileByUploadOption)
        (o : SendFileByUploadOption) (r1 r2 : RequestSendFileByUpload),
        env.ValidateChatId [chatId] = none →
        Applied pre (RequestSendFileByUpload.start chatId filePath fileName) r1 →
        o r1 = (some e, r2) →
        applyOptions (pre ++ o :: post) (RequestSendFileByUpload.start chatId filePath fileName)
          = (some e, r2) ∧
        SendingCategory.SendFileByUpload env ⟨g⟩ chatId filePath fileName (pre ++ o :: post) t
          = ((none, some e), t)) ∧
    (∀ (chatId urlFile fileName : String) (pre post : List SendFileByUrlOption)
        (o : SendFileByUrlOption) (r1 r2 : RequestSendFileByUrl),
        env.ValidateChatId [chatId] = none → env.ValidateURL urlFile = none →
        Applied pre (RequestSendFileByUrl.start chatId urlFile fileName) r1 →
        o r1 = (some e, r2) →
        applyOptions (pre ++ o :: post) (RequestSendFileByUrl.start chatId urlFile fileName)
          = (some e, r2) ∧
        SendingCategory.SendFileByUrl env ⟨g⟩ chatId urlFile fileName (pre ++ o :: post) t
          = ((none, some e), t)) := by
  refine ⟨?_, ?_, ?_, ?_⟩
  · intro pre post o r1 r2 hpre ho
    have hl := applyOptions_first_failure pre post o _ r1 r2 e hpre ho
    exact ⟨hl, by simp [AccountCategory.SetSettings, hl]⟩
  · intro chatId message pre post o r1 r2 hc hm hpre ho
    have hl := applyOptions_first_failure pre post o _ r1 r2 e hpre ho
    refine ⟨hl, ?_⟩
    simp only [RequestSendMessage.start] at hl
    simp [SendingCategory.SendMessage, hc, hm, hl]
  · intro chatId filePath fileName pre post o r1 r2 hc hpre ho
    have hl := applyOptions_first_failure pre post o _ r1 r2 e hpre ho
    refine ⟨hl, ?_⟩
    simp only [RequestSendFileByUpload.start] at hl
    simp [SendingCategory.SendFileByUpload, hc, hl]
  · intro chatId urlFile fileName pre post o r1 r2 hc hu hpre ho
    have hl := applyOptions_first_failure pre post o _ r1 r2 e hpre ho
    refine ⟨hl, ?_⟩
    simp only [RequestSendFileByUrl.start] at hl
    simp [SendingCategory.SendFileByUrl, hc, hu, hl]

/-- C2 at a concrete input: `SetSettings` with a token option, then a webhook URL the
sample validator rejects, then a toggle: the URL validator's error comes back, the struct
holds the token only, and no call is made. -/
theorem option_error_aborts_witness :
    applyOptions
        ([OptionalWebhookUrlToken "tok"] ++ OptionalWebhookUrl sampleEnv "ftp://x" ::
          [OptionalOutgoingWebhook true]) RequestSetSettings.zero
      = (some ⟨"malformed url"⟩, { RequestSetSettings.zero with WebhookUrlToken := some "tok" }) ∧
    AccountCategory.SetSettings ⟨sampleAPI⟩
        ([OptionalWebhookUrlToken "tok"] ++ OptionalWebhookUrl sampleEnv "ftp://x" ::
          [OptionalOutgoingWebhook true]) []
      = ((none, some ⟨"malformed url"⟩), []) :=
  (option_error_aborts sampleEnv sampleAPI [] ⟨"malformed url"⟩).1
    [OptionalWebhookUrlToken "tok"] [OptionalOutgoingWebhook true]
    (OptionalWebhookUrl sampleEnv "ftp://x")
    { RequestSetSettings.zero with WebhookUrlToken := some "tok" }
    { RequestSetSettings.zero with WebhookUrlToken := some "tok" }
    (Applied.cons _ _ _ _ _ rfl (Applied.nil _)) (by decide)

/-! ## C3: exactly one of response and error -/

/-- C3: for every façade operation and every input, provided the dispatcher answers every
call with exactly one non-nil value of (response, error), the operation returns exactly
one non-nil value as well; and whenever the operation returns without having called
`Request` (validation, option, marshalling or file-read failure), its response is nil and
its error is non-nil. -/
theorem exactly_one_result (env : Env) (g : GreenAPIInterface) (inv : Invocation) (t : Trace)
    (h : ∀ c, ExactlyOne (g.respond t c)) :
    ExactlyOne (run env g inv t).1 ∧
    ((run env g inv t).2 = t → ∃ e, (run env g inv t).1 = (none, some e)) := by
  rcases run_shape env g inv t with ⟨e, he⟩ | ⟨c, hc⟩
  · rw [he]
    exact ⟨Or.inr ⟨rfl, by simp⟩, fun _ => ⟨e, rfl⟩⟩
  · rw [hc]
    exact ⟨h c, fun ht => absurd ht (by simp)⟩

/-- C3 at a concrete input: with the sample dispatcher, `GetAvatar` of a chat id the
sample validator accepts. -/
theorem exactly_one_result_witness :
    ExactlyOne (run sampleEnv sampleAPI (.GetAvatar "10000000") []).1 ∧
    ((run sampleEnv sampleAPI (.GetAvatar "10000000") []).2 = [] →
      ∃ e, (run sampleEnv sampleAPI (.GetAvatar "10000000") []).1 = (none, some e)) :=
  exactly_one_result sampleEnv sampleAPI (.GetAvatar "10000000") []
    (fun _ => Or.inl ⟨by simp [sampleAPI], rfl⟩)

/-! ## C4: one call of the dispatcher, its answer handed back -/

theorem firstError_none_iff (checks : List (Option GoError)) :
    firstError checks = none ↔ ∀ x ∈ checks, x = none := by
  induction checks with
  | nil => simp [firstError]
  | cons x rest ih => cases x <;> simp [firstError, ih]

/-- C4 as stated fails at `UploadFile` of a file that cannot be read: the operation has no
validator and no option, so all of them succeed, and yet it returns the read error without
calling `Request`. -/
theorem upload_unreadable_makes_no_call :
    (∀ x ∈ validatorChecks sampleEnv (.UploadFile "/tmp/missing.bin"), x = none) ∧
    optionsError (.UploadFile "/tmp/missing.bin") = none ∧
    run sampleEnv sampleAPI (.UploadFile "/tmp/missing.bin") []
      = ((none, some ⟨"no such file"⟩), []) := by
  refine ⟨by simp [validatorChecks], rfl, by decide⟩

/-- C4, amended: for every façade operation and every input on which all validators and
all options succeed and, for `UploadFile`, the file is read, the operation calls `Request`
exactly once and returns the pair `Request` returned, unchanged; on every other input it
calls `Request` zero times; no operation calls `Request` more than once. -/
theorem one_call_result_unchanged (env : Env) (g : GreenAPIInterface) (inv : Invocation)
    (t : Trace) :
    (((∀ x ∈ validatorChecks env inv, x = none) ∧ optionsError inv = none ∧
        readError env inv = none) →
      ∃ c, run env g inv t = (g.respond t c, t ++ [c])) ∧
    (¬ ((∀ x ∈ validatorChecks env inv, x = none) ∧ optionsError inv = none ∧
        readError env inv = none) →
      (run env g inv t).2 = t) ∧
    ((run env g inv t).2 = t ∨ ∃ c, (run env g inv t).2 = t ++ [c]) := by
  rw [← firstError_none_iff]
  refine ⟨?_, ?_, ?_⟩
  · rintro ⟨hv, ho, hr⟩
    cases inv <;>
      simp only [validatorChecks, firstError_map, optionsError, readError,
        RequestSendMessage.start, RequestSendFileByUpload.start,
        RequestSendFileByUrl.start] at hv ho hr <;>
      simp only [run, AccountCategory.GetSettings, AccountCategory.SetSettings,
        AccountCategory.GetStateInstance, AccountCategory.GetStatusInstance,
        AccountCategory.Reboot, AccountCategory.Logout, AccountCategory.StartAuthorization,
        AccountCategory.SendAuthorizationCode, AccountCategory.SetProfilePicture,
        AccountCategory.GetAccountSettings, GroupsCategory.CreateGroup,
        GroupsCategory.UpdateGroupName, GroupsCategory.GetGroupData,
        GroupsCategory.AddGroupParticipant, GroupsCategory.RemoveGroupParticipant,
        GroupsCategory.SetGroupAdmin, GroupsCategory.RemoveAdmin,
        GroupsCategory.SetGroupPicture, GroupsCategory.LeaveGroup,
        SendingCategory.SendMessage, SendingCategory.SendFileByUpload,
        SendingCategory.SendFileByUrl, SendingCategory.UploadFile,
        ServiceCategory.CheckAccount, ServiceCategory.GetAvatar, ServiceCategory.GetContacts,
        ServiceCategory.GetContactInfo, jsonMarshal, GreenAPIInterface.Request] <;>
      (repeat' split) <;>
      first
        | exact ⟨_, rfl⟩
        | simp_all [firstError]
  · intro hn
    cases inv <;>
      simp only [validatorChecks, firstError_map, optionsError, readError,
        RequestSendMessage.start, RequestSendFileByUpload.start,
        RequestSendFileByUrl.start] at hn <;>
      simp only [run, AccountCategory.GetSettings, AccountCategory.SetSettings,
        AccountCategory.GetStateInstance, AccountCategory.GetStatusInstance,
        AccountCategory.Reboot, AccountCategory.Logout, AccountCategory.StartAuthorization,
        AccountCategory.SendAuthorizationCode, AccountCategory.SetProfilePicture,
        AccountCategory.GetAccountSettings, GroupsCategory.CreateGroup,
        GroupsCategory.UpdateGroupName, GroupsCategory.GetGroupData,
        GroupsCategory.AddGroupParticipant, GroupsCategory.RemoveGroupParticipant,
        GroupsCategory.SetGroupAdmin, GroupsCategory.RemoveAdmin,
        GroupsCategory.SetGroupPicture, GroupsCategory.LeaveGroup,
        SendingCategory.SendMessage, SendingCategory.SendFileByUpload,
        SendingCategory.SendFileByUrl, SendingCategory.UploadFile,
        ServiceCategory.CheckAccount, ServiceCategory.GetAvatar, ServiceCategory.GetContacts,
        ServiceCategory.GetContactInfo, jsonMarshal, GreenAPIInterface.Request] <;>
      (repeat' split) <;>
      first
        | rfl
        | simp_all [firstError]
  · rcases run_shape env g inv t with ⟨e, he⟩ | ⟨c, hc⟩
    · exact Or.inl (by rw [he])
    · exact Or.inr ⟨c, by rw [hc]⟩

/-- C4, amended, at a concrete input: `GetAvatar` of an accepted chat id calls the sample
dispatcher once, with the encoded struct, and returns its answer. -/
theorem one_call_result_unchanged_witness :
    ∃ c, run sampleEnv sampleAPI (.GetAvatar "10000000") []
      = (sampleAPI.respond [] c, [] ++ [c]) :=
  (one_call_result_unchanged sampleEnv sampleAPI (.GetAvatar "10000000") []).1
    ⟨by decide, rfl, rfl⟩

/-! ## C5: what one option does to the struct -/

/-- C5: each of the sixteen functional options, applied to any request struct `r`, either
fails and hands `r` back unchanged (only `OptionalWebhookUrl` when `ValidateURL` rejects
the URL, and the two caption options when `ValidateMessageLength` rejects the caption at
20000), or succeeds and hands back `r` with its own target field set to the value of its
argument ("yes"/"no" for the boolean toggles of `SetSettings`) and every other field as
it was. -/
theorem option_sets_own_field (env : Env) (s : String) (n : Nat) (b : Bool)
    (r : RequestSetSettings) (m : RequestSendMessage) (u : RequestSendFileByUpload)
    (v : RequestSendFileByUrl) :
    ((∀ e, env.ValidateURL s = some e → OptionalWebhookUrl env s r = (some e, r)) ∧
     (env.ValidateURL s = none →
        OptionalWebhookUrl env s r = (none, { r with WebhookUrl := some s }))) ∧
    OptionalWebhookUrlToken s r = (none, { r with WebhookUrlToken := some s }) ∧
    OptionalDelaySendMessages n r = (none, { r with DelaySendMessagesMilliseconds := some n }) ∧
    OptionalMarkIncomingMessagesRead b r
      = (none, { r with MarkIncomingMessagesReaded := yesNo b }) ∧
    OptionalMarkIncomingMessagesReadOnReply b r
      = (none, { r with MarkIncomingMessagesReadedOnReply := yesNo b }) ∧
    OptionalOutgoingWebhook b r = (none, { r with OutgoingWebhook := yesNo b }) ∧
    OptionalOutgoingMessageWebhook b r = (none, { r with OutgoingMessageWebhook := yesNo b }) ∧
    OptionalOutgoingAPIMessageWebhook b r
      = (none, { r with OutgoingAPIMessageWebhook := yesNo b }) ∧
    OptionalStateWebhook b r = (none, { r with StateWebhook := yesNo b }) ∧
    OptionalIncomingWebhook b r = (none, { r with IncomingWebhook := yesNo b }) ∧
    OptionalQuotedMessageId s m = (none, { m with QuotedMessageId := s }) ∧
    OptionalLinkPreview b m = (none, { m with LinkPreview := some b }) ∧
    ((∀ e, env.ValidateMessageLength s 20000 = some e →
        OptionalCaptionSendUpload env s u = (some e, u)) ∧
     (env.ValidateMessageLength s 20000 = none →
        OptionalCaptionSendUpload env s u = (none, { u with Caption := s }))) ∧
    OptionalQuotedMessageIdSendUpload s u = (none, { u with QuotedMessageId := s }) ∧
    ((∀ e, env.ValidateMessageLength s 20000 = some e →
        OptionalCaptionSendUrl env s v = (some e, v)) ∧
     (env.ValidateMessageLength s 20000 = none →
        OptionalCaptionSendUrl env s v = (none, { v with Caption := s }))) ∧
    OptionalQuotedMessageIdSendUrl s v = (none, { v with QuotedMessageId := s }) := by
  refine ⟨⟨?_, ?_⟩, rfl, rfl, ?_, ?_, ?_, ?_, ?_, ?_, ?_, rfl, rfl, ⟨?_, ?_⟩, rfl, ⟨?_, ?_⟩, rfl⟩
  · intro e he; simp [OptionalWebhookUrl, he]
  · intro he; simp [OptionalWebhookUrl, he]
  · cases b <;> rfl
  · cases b <;> rfl
  · cases b <;> rfl
  · cases b <;> rfl
  · cases b <;> rfl
  · cases b <;> rfl
  · cases b <;> rfl
  · intro e he; simp [OptionalCaptionSendUpload, he]
  · intro he; simp [OptionalCaptionSendUpload, he]
  · intro e he; simp [OptionalCaptionSendUrl, he]
  · intro he; simp [OptionalCaptionSendUrl, he]

/-- C5 at a concrete input: on the zero struct with the sample validators, a rejected
webhook URL leaves the struct unchanged. -/
theorem option_sets_own_field_witness :
    OptionalWebhookUrl sampleEnv "ftp://x" RequestSetSettings.zero
      = (some ⟨"malformed url"⟩, RequestSetSettings.zero) :=
  (option_sets_own_field sampleEnv "ftp://x" 0 true RequestSetSettings.zero
    (RequestSendMessage.start "" "") (RequestSendFileByUpload.start "" "" "")
    (RequestSendFileByUrl.start "" "" "")).1.1 ⟨"malformed url"⟩ (by decide)

/-! ## C6: the members of a form-data payload -/

/-- C6 as stated fails at `SendFileByUpload` without options: the call reaches the
dispatcher with `WithFormData(true)`, and its payload has the members `chatId`, `file` and
`fileName` only, no `caption` and no `quotedMessageId` (both are tagged `omitempty`). -/
theorem upload_payload_lacks_caption :
    (run sampleEnv sampleAPI (.SendFileByUpload "10000000" "/tmp/a.png" "a.png" []) []).2
      = [⟨"POST", "sendFileByUpload",
          .json [("chatId", .str "10000000"), ("file", .str "/tmp/a.png"),
                 ("fileName", .str "a.png")],
          [.WithFormData true, .WithMediaHost true]⟩] ∧
    (Payload.json [("chatId", .str "10000000"), ("file", .str "/tmp/a.png"),
                   ("fileName", .str "a.png")]).hasKey "caption" = false ∧
    (Payload.json [("chatId", .str "10000000"), ("file", .str "/tmp/a.png"),
                   ("fileName", .str "a.png")]).hasKey "quotedMessageId" = false := by
  refine ⟨by decide, by decide, by decide⟩

/-- C6, amended: `WithFormData(true)` is passed by `SendFileByUpload`, `SetProfilePicture`
and `SetGroupPicture` and by no other operation, and for every call of one of the three
that reaches the dispatcher the payload has a member for every JSON-tagged field that is
not tagged `omitempty` (`chatId`, `file`, `fileName`; `file`; `file`, `chatId`), whatever
the values and the options; the two `omitempty` fields of `SendFileByUpload`, `caption`
and `quotedMessageId`, have a member exactly when the field is not the empty string after
the options. -/
theorem form_data_payload_members (env : Env) (g : GreenAPIInterface) (t : Trace)
    (c : RequestCall) :
    (∀ inv, (run env g inv t).2 = t ++ [c] →
      (DispatchOption.WithFormData true ∈ c.options ↔ passesFormData inv = true)) ∧
    (∀ chatId filePath fileName options,
      (SendingCategory.SendFileByUpload env ⟨g⟩ chatId filePath fileName options t).2
        = t ++ [c] →
      c.payload.hasKey "chatId" = true ∧ c.payload.hasKey "file" = true ∧
      c.payload.hasKey "fileName" = true ∧
      ∃ r, applyOptions options (RequestSendFileByUpload.start chatId filePath fileName)
          = (none, r) ∧
        (c.payload.hasKey "caption" = true ↔ r.Caption ≠ "") ∧
        (c.payload.hasKey "quotedMessageId" = true ↔ r.QuotedMessageId ≠ "")) ∧
    (∀ filepath,
      (AccountCategory.SetProfilePicture ⟨g⟩ filepath t).2 = t ++ [c] →
      c.payload.hasKey "file" = true) ∧
    (∀ filepath chatId,
      (GroupsCategory.SetGroupPicture env ⟨g⟩ filepath chatId t).2 = t ++ [c] →
      c.payload.hasKey "file" = true ∧ c.payload.hasKey "chatId" = true) := by
  refine ⟨?_, ?_, ?_, ?_⟩
  · intro inv
    cases inv <;>
      simp only [run, AccountCategory.GetSettings, AccountCategory.SetSettings,
        AccountCategory.GetStateInstance, AccountCategory.GetStatusInstance,
        AccountCategory.Reboot, AccountCategory.Logout, AccountCategory.StartAuthorization,
        AccountCategory.SendAuthorizationCode, AccountCategory.SetProfilePicture,
        AccountCategory.GetAccountSettings, GroupsCategory.CreateGroup,
        GroupsCategory.UpdateGroupName, GroupsCategory.GetGroupData,
        GroupsCategory.AddGroupParticipant, GroupsCategory.RemoveGroupParticipant,
        GroupsCategory.SetGroupAdmin, GroupsCategory.RemoveAdmin,
        GroupsCategory.SetGroupPicture, GroupsCategory.LeaveGroup,
        SendingCategory.SendMessage, SendingCategory.SendFileByUpload,
        SendingCategory.SendFileByUrl, SendingCategory.UploadFile,
        ServiceCategory.CheckAccount, ServiceCategory.GetAvatar, ServiceCategory.GetContacts,
        ServiceCategory.GetContactInfo, jsonMarshal, GreenAPIInterface.Request,
        passesFormData] <;>
      (repeat' split) <;>
      simp <;>
      (intro h; subst h; simp)
  · intro chatId filePath fileName options
    simp only [SendingCategory.SendFileByUpload, jsonMarshal, GreenAPIInterface.Request,
      RequestSendFileByUpload.start]
    (repeat' split) <;> simp
    rename_i r1 hr1
    intro h
    subst h
    simp only [hr1, Payload.hasKey, RequestSendFileByUpload.encode, omitemptyString]
    refine ⟨by simp, by simp, by simp, ?_⟩
    refine ⟨r1, rfl, ?_, ?_⟩ <;> (split <;> split <;> simp_all)
  · intro filepath
    simp only [AccountCategory.SetProfilePicture, jsonMarshal, GreenAPIInterface.Request,
      RequestSetProfilePicture.encode]
    simp
    intro h
    subst h
    simp [Payload.hasKey]
  · intro filepath chatId
    simp only [GroupsCategory.SetGroupPicture, jsonMarshal, GreenAPIInterface.Request,
      RequestSetGroupPicture.encode]
    (repeat' split) <;> simp
    intro h
    subst h
    simp [Payload.hasKey]

/-- C6, amended, at a concrete input: `SendFileByUpload` with a caption option. -/
theorem form_data_payload_members_witness :
    (Payload.json [("chatId", .str "10000000"), ("file", .str "/tmp/a.png"),
        ("fileName", .str "a.png"), ("caption", .str "hi")]).hasKey "chatId" = true ∧
    (Payload.json [("chatId", .str "10000000"), ("file", .str "/tmp/a.png"),
        ("fileName", .str "a.png"), ("caption", .str "hi")]).hasKey "file" = true ∧
    (Payload.json [("chatId", .str "10000000"), ("file", .str "/tmp/a.png"),
        ("fileName", .str "a.png"), ("caption", .str "hi")]).hasKey "fileName" = true ∧
    ∃ r, applyOptions [OptionalCaptionSendUpload sampleEnv "hi"]
          (RequestSendFileByUpload.start "10000000" "/tmp/a.png" "a.png") = (none, r) ∧
      ((Payload.json [("chatId", .str "10000000"), ("file", .str "/tmp/a.png"),
          ("fileName", .str "a.png"), ("caption", .str "hi")]).hasKey "caption" = true
        ↔ r.Caption ≠ "") ∧
      ((Payload.json [("chatId", .str "10000000"), ("file", .str "/tmp/a.png"),
          ("fileName", .str "a.png"), ("caption", .str "hi")]).hasKey "quotedMessageId" = true
        ↔ r.QuotedMessageId ≠ "") :=
  (form_data_payload_members sampleEnv sampleAPI []
    ⟨"POST", "sendFileByUpload",
      .json [("chatId", .str "10000000"), ("file", .str "/tmp/a.png"),
        ("fileName", .str "a.png"), ("caption", .str "hi")],
      [.WithFormData true, .WithMediaHost true]⟩).2.1
    "10000000" "/tmp/a.png" "a.png" [OptionalCaptionSendUpload sampleEnv "hi"] (by decide)

/-! ## C7: the call `SendFileByUpload` makes -/

theorem upload_options_keep_required (env : Env) (options : List SendFileByUploadOption)
    (hlib : ∀ o ∈ options, IsSendFileByUploadOption env o) (r r1 : RequestSendFileByUpload)
    (h : applyOptions options r = (none, r1)) :
    r1.ChatId = r.ChatId ∧ r1.File = r.File ∧ r1.FileName = r.FileName := by
  induction options generalizing r with
  | nil => simp [applyOptions] at h; subst h; exact ⟨rfl, rfl, rfl⟩
  | cons o rest ih =>
    have hrest : ∀ o ∈ rest, IsSendFileByUploadOption env o :=
      fun x hx => hlib x (by simp [hx])
    rcases hlib o (by simp) with ⟨caption, rfl⟩ | ⟨q, rfl⟩
    · simp only [applyOptions, OptionalCaptionSendUpload] at h
      cases hv : env.ValidateMessageLength caption 20000 with
      | some e => simp [hv] at h
      | none =>
        simp only [hv] at h
        simpa using ih hrest _ h
    · simp only [applyOptions, OptionalQuotedMessageIdSendUpload] at h
      simpa using ih hrest _ h

/-- C7: for every chat id `ValidateChatId` accepts, every `filePath` and `fileName` and
every list of options of the package (`OptionalCaptionSendUpload`,
`OptionalQuotedMessageIdSendUpload`) that all succeed, `SendFileByUpload` calls `Request`
with verb `POST`, endpoint `sendFileByUpload`, exactly the dispatch options
`WithFormData(true)`, `WithMediaHost(true)`, and as payload the JSON encoding of a struct
whose `chatId`, `file` and `fileName` fields are `chatId`, `filePath` and `fileName`; it
returns what `Request` answers. -/
theorem send_file_by_upload_call (env : Env) (g : GreenAPIInterface)
    (chatId filePath fileName : String) (options : List SendFileByUploadOption) (t : Trace)
    (hc : env.ValidateChatId [chatId] = none)
    (hlib : ∀ o ∈ options, IsSendFileByUploadOption env o)
    (hok : (applyOptions options
      (RequestSendFileByUpload.start chatId filePath fileName)).1 = none) :
    ∃ r : RequestSendFileByUpload,
      r.ChatId = chatId ∧ r.File = filePath ∧ r.FileName = fileName ∧
      SendingCategory.SendFileByUpload env ⟨g⟩ chatId filePath fileName options t
        = (g.respond t ⟨"POST", "sendFileByUpload", .json r.encode,
              [.WithFormData true, .WithMediaHost true]⟩,
           t ++ [⟨"POST", "sendFileByUpload", .json r.encode,
              [.WithFormData true, .WithMediaHost true]⟩]) := by
  cases hl : applyOptions options (RequestSendFileByUpload.start chatId filePath fileName) with
  | mk err r =>
    rw [hl] at hok
    simp only at hok
    subst hok
    obtain ⟨h1, h2, h3⟩ := upload_options_keep_required env options hlib _ r hl
    refine ⟨r, h1, h2, h3, ?_⟩
    simp only [RequestSendFileByUpload.start] at hl
    simp [SendingCategory.SendFileByUpload, hc, hl, jsonMarshal, GreenAPIInterface.Request]

/-- C7 at a concrete input: an accepted chat id, a caption option and a quoted-message
option. -/
theorem send_file_by_upload_call_witness :
    ∃ r : RequestSendFileByUpload,
      r.ChatId = "10000000" ∧ r.File = "/tmp/a.png" ∧ r.FileName = "a.png" ∧
      SendingCategory.SendFileByUpload sampleEnv ⟨sampleAPI⟩ "10000000" "/tmp/a.png" "a.png"
          [OptionalCaptionSendUpload sampleEnv "hi", OptionalQuotedMessageIdSendUpload "42"] []
        = (sampleAPI.respond [] ⟨"POST", "sendFileByUpload", .json r.encode,
              [.WithFormData true, .WithMediaHost true]⟩,
           [] ++ [⟨"POST", "sendFileByUpload", .json r.encode,
              [.WithFormData true, .WithMediaHost true]⟩]) :=
  send_file_by_upload_call sampleEnv sampleAPI "10000000" "/tmp/a.png" "a.png"
    [OptionalCaptionSendUpload sampleEnv "hi", OptionalQuotedMessageIdSendUpload "42"] []
    (by decide)
    (by
      intro o ho
      simp only [List.mem_cons, List.mem_singleton, List.not_mem_nil, or_false] at ho
      rcases ho with rfl | rfl
      · exact Or.inl ⟨_, rfl⟩
      · exact Or.inr ⟨_, rfl⟩)
    (by decide)

/-! ## C8: which operations pass `WithMediaHost(true)` -/

/-- C8 as stated fails at `SetProfilePicture` and at `SetGroupPicture`: each uploads a
local file and dispatches with `WithFormData(true)` only, without `WithMediaHost(true)`. -/
theorem picture_calls_lack_media_host :
    (run sampleEnv sampleAPI (.SetProfilePicture "/tmp/a.png") []).2
      = [⟨"POST", "setProfilePicture", .json [("file", .str "/tmp/a.png")],
          [.WithFormData true]⟩] ∧
    (run sampleEnv sampleAPI (.SetGroupPicture "/tmp/a.png" "10000000") []).2
      = [⟨"POST", "setGroupPicture",
          .json [("file", .str "/tmp/a.png"), ("chatId", .str "10000000")],
          [.WithFormData true]⟩] ∧
    DispatchOption.WithMediaHost true ∉ [DispatchOption.WithFormData true] := by
  refine ⟨by decide, by decide, by decide⟩

/-- C8, amended: `SendFileByUpload` and `UploadFile` dispatch with `WithMediaHost(true)`;
every other operation, `SetProfilePicture` and `SetGroupPicture` included, dispatches
without any `WithMediaHost` option, so that it targets the API host. -/
theorem media_host_operations (env : Env) (g : GreenAPIInterface) (inv : Invocation)
    (t : Trace) (c : RequestCall) (h : (run env g inv t).2 = t ++ [c]) :
    (passesMediaHost inv = true → DispatchOption.WithMediaHost true ∈ c.options) ∧
    (passesMediaHost inv = false → ∀ b, DispatchOption.WithMediaHost b ∉ c.options) := by
  revert h
  cases inv <;>
    simp only [run, AccountCategory.GetSettings, AccountCategory.SetSettings,
      AccountCategory.GetStateInstance, AccountCategory.GetStatusInstance,
      AccountCategory.Reboot, AccountCategory.Logout, AccountCategory.StartAuthorization,
      AccountCategory.SendAuthorizationCode, AccountCategory.SetProfilePicture,
      AccountCategory.GetAccountSettings, GroupsCategory.CreateGroup,
      GroupsCategory.UpdateGroupName, GroupsCategory.GetGroupData,
      GroupsCategory.AddGroupParticipant, GroupsCategory.RemoveGroupParticipant,
      GroupsCategory.SetGroupAdmin, GroupsCategory.RemoveAdmin,
      GroupsCategory.SetGroupPicture, GroupsCategory.LeaveGroup,
      SendingCategory.SendMessage, SendingCategory.SendFileByUpload,
      SendingCategory.SendFileByUrl, SendingCategory.UploadFile,
      ServiceCategory.CheckAccount, ServiceCategory.GetAvatar, ServiceCategory.GetContacts,
      ServiceCategory.GetContactInfo, jsonMarshal, GreenAPIInterface.Request,
      passesMediaHost] <;>
    (repeat' split) <;>
    simp <;>
    (intro h; subst h; simp)

/-- C8, amended, at a concrete input: the call `UploadFile` makes for the readable sample
file carries `WithMediaHost(true)`. -/
theorem media_host_operations_witness :
    (passesMediaHost (.UploadFile "/tmp/a.png") = true →
      DispatchOption.WithMediaHost true ∈
        [DispatchOption.WithSetMimetype ⟨"image/png", "a.png"⟩, .WithMediaHost true]) ∧
    (passesMediaHost (.UploadFile "/tmp/a.png") = false →
      ∀ b, DispatchOption.WithMediaHost b ∉
        [DispatchOption.WithSetMimetype ⟨"image/png", "a.png"⟩, .WithMediaHost true]) :=
  media_host_operations sampleEnv sampleAPI (.UploadFile "/tmp/a.png") []
    ⟨"POST", "uploadFile", .raw [137, 80, 78, 71],
      [.WithSetMimetype ⟨"image/png", "a.png"⟩, .WithMediaHost true]⟩ (by decide)

/-! ## C9: `UploadFile` -/

/-- C9: for every `filePath`, if reading the file fails `UploadFile` returns
`(nil, the read error)` and does not call `Request`; otherwise it calls `Request` once and
returns its answer, with verb `POST`, endpoint `uploadFile`, the file's bytes themselves as
payload, `WithSetMimetype` carrying the MIME type detected from those bytes and
`filepath.Base(filePath)` as file name, then `WithMediaHost(true)`, and no `WithFormData`
option. -/
theorem upload_file_call (env : Env) (g : GreenAPIInterface) (filePath : String) (t : Trace) :
    (∀ e, env.ReadFile filePath = .error e →
      SendingCategory.UploadFile env ⟨g⟩ filePath t = ((none, some e), t)) ∧
    (∀ binary, env.ReadFile filePath = .ok binary →
      SendingCategory.UploadFile env ⟨g⟩ filePath t
        = (g.respond t ⟨"POST", "uploadFile", .raw binary,
              [.WithSetMimetype ⟨env.Detect binary, filepathBase filePath⟩,
               .WithMediaHost true]⟩,
           t ++ [⟨"POST", "uploadFile", .raw binary,
              [.WithSetMimetype ⟨env.Detect binary, filepathBase filePath⟩,
               .WithMediaHost true]⟩]) ∧
      ∀ b, DispatchOption.WithFormData b ∉
        [DispatchOption.WithSetMimetype ⟨env.Detect binary, filepathBase filePath⟩,
         .WithMediaHost true]) := by
  refine ⟨?_, ?_⟩
  · intro e he
    simp [SendingCategory.UploadFile, he]
  · intro binary hb
    refine ⟨?_, ?_⟩
    · simp [SendingCategory.UploadFile, hb, GreenAPIInterface.Request]
    · intro b; simp

/-- C9 at a concrete input: the readable sample file, whose last path element is
`a.png` and whose bytes the sample detector names `image/png`. -/
theorem upload_file_call_witness :
    SendingCategory.UploadFile sampleEnv ⟨sampleAPI⟩ "/tmp/a.png" []
        = (sampleAPI.respond [] ⟨"POST", "uploadFile", .raw [137, 80, 78, 71],
              [.WithSetMimetype ⟨"image/png", "a.png"⟩, .WithMediaHost true]⟩,
           [] ++ [⟨"POST", "uploadFile", .raw [137, 80, 78, 71],
              [.WithSetMimetype ⟨"image/png", "a.png"⟩, .WithMediaHost true]⟩]) ∧
      ∀ b, DispatchOption.WithFormData b ∉
        [DispatchOption.WithSetMimetype ⟨"image/png", "a.png"⟩, .WithMediaHost true] :=
  (upload_file_call sampleEnv sampleAPI "/tmp/a.png" []).2 [137, 80, 78, 71]
    (by simp [sampleEnv])

/-! ## C10: the length cap of messages and captions -/

theorem applyOptions_append_none {R : Type} (pre rest : List (R → Option GoError × R))
    (r0 rf : R) (h : applyOptions (pre ++ rest) r0 = (none, rf)) :
    ∃ rm, applyOptions pre r0 = (none, rm) ∧ applyOptions rest rm = (none, rf) := by
  induction pre generalizing r0 with
  | nil => exact ⟨r0, rfl, h⟩
  | cons o tl ih =>
    simp only [List.cons_append, applyOptions] at h ⊢
    cases ho : o r0 with
    | mk err r1 =>
      cases err with
      | some e => simp [ho] at h
      | none =>
        simp only [ho] at h ⊢
        exact ih r1 h

theorem message_options_keep_message (options : List SendMessageOption)
    (hlib : ∀ o ∈ options, IsSendMessageOption o) (r r1 : RequestSendMessage)
    (h : applyOptions options r = (none, r1)) : r1.Message = r.Message := by
  induction options generalizing r with
  | nil => simp [applyOptions] at h; subst h; rfl
  | cons o rest ih =>
    have hrest : ∀ o ∈ rest, IsSendMessageOption o := fun x hx => hlib x (by simp [hx])
    rcases hlib o (by simp) with ⟨q, rfl⟩ | ⟨b, rfl⟩
    · simp only [applyOptions, OptionalQuotedMessageId] at h
      simpa using ih hrest _ h
    · simp only [applyOptions, OptionalLinkPreview] at h
      simpa using ih hrest _ h

theorem upload_quoted_keep_caption (qs : List String) (r rf : RequestSendFileByUpload)
    (h : applyOptions (qs.map OptionalQuotedMessageIdSendUpload) r = (none, rf)) :
    rf.Caption = r.Caption := by
  induction qs generalizing r with
  | nil => simp [applyOptions] at h; subst h; rfl
  | cons q rest ih =>
    simp only [List.map_cons, applyOptions, OptionalQuotedMessageIdSendUpload] at h
    simpa using ih _ h

theorem url_quoted_keep_caption (qs : List String) (r rf : RequestSendFileByUrl)
    (h : applyOptions (qs.map OptionalQuotedMessageIdSendUrl) r = (none, rf)) :
    rf.Caption = r.Caption := by
  induction qs generalizing r with
  | nil => simp [applyOptions] at h; subst h; rfl
  | cons q rest ih =>
    simp only [List.map_cons, applyOptions, OptionalQuotedMessageIdSendUrl] at h
    simpa using ih _ h

theorem upload_member_caption (r : RequestSendFileByUpload) :
    (Payload.json r.encode).member "caption"
      = if r.Caption = "" then none else some (.str r.Caption) := by
  simp only [Payload.member, RequestSendFileByUpload.encode, omitemptyString]
  split <;> split <;> simp [List.lookup]

theorem url_member_caption (r : RequestSendFileByUrl) :
    (Payload.json r.encode).member "caption"
      = if r.Caption = "" then none else some (.str r.Caption) := by
  simp only [Payload.member, RequestSendFileByUrl.encode, omitemptyString]
  split <;> split <;> simp [List.lookup]

theorem message_member_message (r : RequestSendMessage) :
    (Payload.json r.encode).member "message" = some (.str r.Message) := by
  simp [Payload.member, RequestSendMessage.encode, List.lookup]

/-- C10 as stated fails at a caption that is accepted and empty: the sample validator
accepts the empty caption at 20000, `SendFileByUpload` and `SendFileByUrl` dispatch, and
the payload holds no member `caption` at all (the field is tagged `omitempty`), so the
accepted caption is not sent. -/
theorem accepted_empty_caption_is_left_out :
    sampleEnv.ValidateMessageLength "" 20000 = none ∧
    (run sampleEnv sampleAPI
        (.SendFileByUpload "10000000" "/tmp/a.png" "a.png"
          [OptionalCaptionSendUpload sampleEnv ""]) []).2
      = [⟨"POST", "sendFileByUpload",
          .json [("chatId", .str "10000000"), ("file", .str "/tmp/a.png"),
                 ("fileName", .str "a.png")],
          [.WithFormData true, .WithMediaHost true]⟩] ∧
    (Payload.json [("chatId", .str "10000000"), ("file", .str "/tmp/a.png"),
                   ("fileName", .str "a.png")]).member "caption" = none ∧
    (run sampleEnv sampleAPI
        (.SendFileByUrl "10000000" "http://x/a.png" "a.png"
          [OptionalCaptionSendUrl sampleEnv ""]) []).2
      = [⟨"POST", "sendFileByUrl",
          .json [("chatId", .str "10000000"), ("urlFile", .str "http://x/a.png"),
                 ("fileName", .str "a.png")],
          []⟩] ∧
    (Payload.json [("chatId", .str "10000000"), ("urlFile", .str "http://x/a.png"),
                   ("fileName", .str "a.png")]).member "caption" = none := by
  refine ⟨by decide, by decide, by decide, by decide, by decide⟩

/-- C10, amended: the cap is 20000 at every use. `SendMessage` decides on
`ValidateMessageLength(message, 20000)`: a message rejected there is never dispatched (the
error comes back once the chat id is accepted), and a dispatched call was accepted there
and, with options of the package, carries `message` unmodified (a string of valid UTF-8,
as every string here). `OptionalCaptionSendUpload` and `OptionalCaptionSendUrl` decide on
`ValidateMessageLength(caption, 20000)`: a caption rejected there makes every call whose
options contain it return without dispatching; a caption accepted there and followed by
quoted-message options only is dispatched unmodified as the member `caption` when it is
not empty, and is left out of the payload when it is empty. -/
theorem length_cap_is_20000 (env : Env) (g : GreenAPIInterface) (t : Trace) :
    (∀ chatId message options,
      (∀ e, env.ValidateMessageLength message 20000 = some e →
        (SendingCategory.SendMessage env ⟨g⟩ chatId message options t).2 = t ∧
        (env.ValidateChatId [chatId] = none →
          SendingCategory.SendMessage env ⟨g⟩ chatId message options t
            = ((none, some e), t))) ∧
      (∀ c, (∀ o ∈ options, IsSendMessageOption o) →
        (SendingCategory.SendMessage env ⟨g⟩ chatId message options t).2 = t ++ [c] →
        env.ValidateMessageLength message 20000 = none ∧
        c.payload.member "message" = some (.str message))) ∧
    (∀ caption (r : RequestSendFileByUpload),
      (∀ e, env.ValidateMessageLength caption 20000 = some e →
        OptionalCaptionSendUpload env caption r = (some e, r)) ∧
      (env.ValidateMessageLength caption 20000 = none →
        OptionalCaptionSendUpload env caption r = (none, { r with Caption := caption }))) ∧
    (∀ caption (r : RequestSendFileByUrl),
      (∀ e, env.ValidateMessageLength caption 20000 = some e →
        OptionalCaptionSendUrl env caption r = (some e, r)) ∧
      (env.ValidateMessageLength caption 20000 = none →
        OptionalCaptionSendUrl env caption r = (none, { r with Caption := caption }))) ∧
    (∀ chatId filePath fileName caption (pre post : List SendFileByUploadOption) e,
      env.ValidateMessageLength caption 20000 = some e →
      (SendingCategory.SendFileByUpload env ⟨g⟩ chatId filePath fileName
        (pre ++ OptionalCaptionSendUpload env caption :: post) t).2 = t) ∧
    (∀ chatId urlFile fileName caption (pre post : List SendFileByUrlOption) e,
      env.ValidateMessageLength caption 20000 = some e →
      (SendingCategory.SendFileByUrl env ⟨g⟩ chatId urlFile fileName
        (pre ++ OptionalCaptionSendUrl env caption :: post) t).2 = t) ∧
    (∀ chatId filePath fileName caption (pre : List SendFileByUploadOption)
        (quoted : List String) c,
      (SendingCategory.SendFileByUpload env ⟨g⟩ chatId filePath fileName
        (pre ++ OptionalCaptionSendUpload env caption ::
          quoted.map OptionalQuotedMessageIdSendUpload) t).2 = t ++ [c] →
      env.ValidateMessageLength caption 20000 = none ∧
      c.payload.member "caption" = if caption = "" then none else some (.str caption)) ∧
    (∀ chatId urlFile fileName caption (pre : List SendFileByUrlOption)
        (quoted : List String) c,
      (SendingCategory.SendFileByUrl env ⟨g⟩ chatId urlFile fileName
        (pre ++ OptionalCaptionSendUrl env caption ::
          quoted.map OptionalQuotedMessageIdSendUrl) t).2 = t ++ [c] →
      env.ValidateMessageLength caption 20000 = none ∧
      c.payload.member "caption" = if caption = "" then none else some (.str caption)) := by
  refine ⟨?_, ?_, ?_, ?_, ?_, ?_, ?_⟩
  · intro chatId message options
    refine ⟨?_, ?_⟩
    · intro e he
      refine ⟨?_, ?_⟩
      · simp only [SendingCategory.SendMessage, he]
        split <;> rfl
      · intro hc
        simp [SendingCategory.SendMessage, he, hc]
    · intro c hlib
      simp only [SendingCategory.SendMessage, jsonMarshal, GreenAPIInterface.Request]
      (repeat' split) <;> simp
      rename_i hm _ r1 hr1
      intro h
      subst h
      refine ⟨hm, ?_⟩
      rw [message_member_message]
      rw [message_options_keep_message options hlib _ r1 hr1]
  · intro caption r
    exact ⟨fun e he => by simp [OptionalCaptionSendUpload, he],
      fun he => by simp [OptionalCaptionSendUpload, he]⟩
  · intro caption r
    exact ⟨fun e he => by simp [OptionalCaptionSendUrl, he],
      fun he => by simp [OptionalCaptionSendUrl, he]⟩
  · intro chatId filePath fileName caption pre post e he
    simp only [SendingCategory.SendFileByUpload, jsonMarshal, GreenAPIInterface.Request]
    (repeat' split) <;> try rfl
    rename_i r1 hr1
    obtain ⟨rm, _, h2⟩ := applyOptions_append_none _ _ _ _ hr1
    simp [applyOptions, OptionalCaptionSendUpload, he] at h2
  · intro chatId urlFile fileName caption pre post e he
    simp only [SendingCategory.SendFileByUrl, jsonMarshal, GreenAPIInterface.Request]
    (repeat' split) <;> try rfl
    rename_i r1 hr1
    obtain ⟨rm, _, h2⟩ := applyOptions_append_none _ _ _ _ hr1
    simp [applyOptions, OptionalCaptionSendUrl, he] at h2
  · intro chatId filePath fileName caption pre quoted c h
    have key : ∀ r0 r1, applyOptions (pre ++ OptionalCaptionSendUpload env caption ::
        quoted.map OptionalQuotedMessageIdSendUpload) r0 = (none, r1) →
        env.ValidateMessageLength caption 20000 = none ∧
        (Payload.json r1.encode).member "caption"
          = if caption = "" then none else some (.str caption) := by
      intro r0 r1 hr1
      obtain ⟨rm, _, h2⟩ := applyOptions_append_none _ _ _ _ hr1
      simp only [applyOptions, OptionalCaptionSendUpload] at h2
      cases hv : env.ValidateMessageLength caption 20000 with
      | some e => simp [hv] at h2
      | none =>
        simp only [hv] at h2
        have hk := upload_quoted_keep_caption quoted _ r1 h2
        simp only at hk
        exact ⟨rfl, by rw [upload_member_caption, hk]⟩
    simp only [SendingCategory.SendFileByUpload, jsonMarshal, GreenAPIInterface.Request] at h
    repeat' split at h
    all_goals first
      | (simp at h; done)
      | (rename_i r1 hr1
         simp only [List.append_cancel_left_eq, List.cons.injEq, and_true] at h
         subst h
         exact key _ r1 hr1)
  · intro chatId urlFile fileName caption pre quoted c h
    have key : ∀ r0 r1, applyOptions (pre ++ OptionalCaptionSendUrl env caption ::
        quoted.map OptionalQuotedMessageIdSendUrl) r0 = (none, r1) →
        env.ValidateMessageLength caption 20000 = none ∧
        (Payload.json r1.encode).member "caption"
          = if caption = "" then none else some (.str caption) := by
      intro r0 r1 hr1
      obtain ⟨rm, _, h2⟩ := applyOptions_append_none _ _ _ _ hr1
      simp only [applyOptions, OptionalCaptionSendUrl] at h2
      cases hv : env.ValidateMessageLength caption 20000 with
      | some e => simp [hv] at h2
      | none =>
        simp only [hv] at h2
        have hk := url_quoted_keep_caption quoted _ r1 h2
        simp only at hk
        exact ⟨rfl, by rw [url_member_caption, hk]⟩
    simp only [SendingCategory.SendFileByUrl, jsonMarshal, GreenAPIInterface.Request] at h
    repeat' split at h
    all_goals first
      | (simp at h; done)
      | (rename_i r1 hr1
         simp only [List.append_cancel_left_eq, List.cons.injEq, and_true] at h
         subst h
         exact key _ r1 hr1)

/-- C10 at a concrete input: `SendFileByUpload` with the caption `hi`, which the sample
validator accepts at 20000, followed by a quoted-message option. -/
theorem length_cap_is_20000_witness :
    sampleEnv.ValidateMessageLength "hi" 20000 = none ∧
    (Payload.json [("chatId", .str "10000000"), ("file", .str "/tmp/a.png"),
        ("fileName", .str "a.png"), ("caption", .str "hi"),
        ("quotedMessageId", .str "42")]).member "caption"
      = if "hi" = "" then none else some (.str "hi") :=
  (length_cap_is_20000 sampleEnv sampleAPI []).2.2.2.2.2.1
    "10000000" "/tmp/a.png" "a.png" "hi" [] ["42"]
    ⟨"POST", "sendFileByUpload",
      .json [("chatId", .str "10000000"), ("file", .str "/tmp/a.png"),
        ("fileName", .str "a.png"), ("caption", .str "hi"), ("quotedMessageId", .str "42")],
      [.WithFormData true, .WithMediaHost true]⟩
    (by decide)

/-! ## C11: every call meets the dispatcher's input contract -/

/-- C11: every call a façade operation makes to `Request` has verb `GET` or `POST` and a
non-empty endpoint; a `GET` call passes the nil payload and no dispatch option; a `POST`
call passes a non-nil payload; and the payload is the one the contract names for the
operation (`contractPayload`): the JSON encoding of the operation's request struct, built
from its arguments and options, for every JSON operation, and the raw bytes `os.ReadFile`
returned for `UploadFile`. -/
theorem request_contract (env : Env) (g : GreenAPIInterface) (inv : Invocation) (t : Trace)
    (c : RequestCall) (h : (run env g inv t).2 = t ++ [c]) :
    (c.verb = "GET" ∨ c.verb = "POST") ∧ c.endpoint ≠ "" ∧
    (c.verb = "GET" → c.payload = .nil ∧ c.options = []) ∧
    (c.verb = "POST" → c.payload ≠ .nil ∧
      (∀ filePath, inv = .UploadFile filePath →
        ∃ bytes, env.ReadFile filePath = .ok bytes ∧ c.payload = .raw bytes) ∧
      ((∀ filePath, inv ≠ .UploadFile filePath) → ∃ doc, c.payload = .json doc)) ∧
    c.payload = contractPayload env inv := by
  revert h
  cases inv <;>
    simp only [run, AccountCategory.GetSettings, AccountCategory.SetSettings,
      AccountCategory.GetStateInstance, AccountCategory.GetStatusInstance,
      AccountCategory.Reboot, AccountCategory.Logout, AccountCategory.StartAuthorization,
      AccountCategory.SendAuthorizationCode, AccountCategory.SetProfilePicture,
      AccountCategory.GetAccountSettings, GroupsCategory.CreateGroup,
      GroupsCategory.UpdateGroupName, GroupsCategory.GetGroupData,
      GroupsCategory.AddGroupParticipant, GroupsCategory.RemoveGroupParticipant,
      GroupsCategory.SetGroupAdmin, GroupsCategory.RemoveAdmin,
      GroupsCategory.SetGroupPicture, GroupsCategory.LeaveGroup,
      SendingCategory.SendMessage, SendingCategory.SendFileByUpload,
      SendingCategory.SendFileByUrl, SendingCategory.UploadFile,
      ServiceCategory.CheckAccount, ServiceCategory.GetAvatar, ServiceCategory.GetContacts,
      ServiceCategory.GetContactInfo, jsonMarshal, GreenAPIInterface.Request,
      contractPayload, RequestSendMessage.start, RequestSendFileByUpload.start,
      RequestSendFileByUrl.start] <;>
    (repeat' split) <;>
    simp <;>
    (intro h; subst h; simp_all)

/-- C11 at a concrete input: the call `SendMessage` makes with the option of the example
program, a `POST` whose payload is the encoding of the request struct. -/
theorem request_contract_witness :
    ("POST" = "GET" ∨ "POST" = "POST") ∧ "sendMessage" ≠ "" ∧
    ("POST" = "GET" →
      Payload.json [("chatId", .str "10000000"), ("message", .str "Hello"),
          ("linkPreview", .bool false)] = .nil ∧
      ([] : List DispatchOption) = []) ∧
    ("POST" = "POST" →
      Payload.json [("chatId", .str "10000000"), ("message", .str "Hello"),
          ("linkPreview", .bool false)] ≠ .nil ∧
      (∀ filePath,
        Invocation.SendMessage "10000000" "Hello" [OptionalLinkPreview false]
          = .UploadFile filePath →
        ∃ bytes, sampleEnv.ReadFile filePath = .ok bytes ∧
          Payload.json [("chatId", .str "10000000"), ("message", .str "Hello"),
            ("linkPreview", .bool false)] = .raw bytes) ∧
      ((∀ filePath,
        Invocation.SendMessage "10000000" "Hello" [OptionalLinkPreview false]
          ≠ .UploadFile filePath) →
        ∃ doc, Payload.json [("chatId", .str "10000000"), ("message", .str "Hello"),
          ("linkPreview", .bool false)] = .json doc)) ∧
    Payload.json [("chatId", .str "10000000"), ("message", .str "Hello"),
        ("linkPreview", .bool false)]
      = contractPayload sampleEnv
          (.SendMessage "10000000" "Hello" [OptionalLinkPreview false]) :=
  request_contract sampleEnv sampleAPI
    (.SendMessage "10000000" "Hello" [OptionalLinkPreview false]) []
    ⟨"POST", "sendMessage",
      .json [("chatId", .str "10000000"), ("message", .str "Hello"),
        ("linkPreview", .bool false)], []⟩
    (by decide)

/-! ## C12: the URL a call resolves to -/

theorem foldl_apply_keeps_mediaHost (post : List DispatchOption)
    (hpost : ∀ b, DispatchOption.WithMediaHost b ∉ post) (ro : requestOptions) :
    (post.foldl (fun ro o => o.apply ro) ro).mediaHost = ro.mediaHost := by
  induction post generalizing ro with
  | nil => rfl
  | cons o rest ih =>
    have hrest : ∀ b, DispatchOption.WithMediaHost b ∉ rest :=
      fun b hb => hpost b (by simp [hb])
    simp only [List.foldl_cons]
    rw [ih hrest]
    cases o with
    | WithFormData b => rfl
    | WithMediaHost b => exact absurd (by simp) (hpost b)
    | WithSetMimetype m => rfl

/-- C12: for every configured API host, media host, instance id and token, every endpoint
and every list of dispatch options, the URL resolved for the call is exactly
`host/waInstance{instanceId}/{endpoint}/{token}` and nothing more (no `?` that the parts
do not hold), where `host` is the API host when no `WithMediaHost` option is passed and
otherwise the media host or the API host as the last `WithMediaHost` option says `true`
or `false`; for the calls of the façades that is the media host for `SendFileByUpload`
and `UploadFile` and the API host for every other operation; and for host
`https://api.example.com/v3`, instance `123`, token `tok` and endpoint `getSettings` the
URL is `https://api.example.com/v3/waInstance123/getSettings/tok`. -/
theorem resolved_url (a : GreenAPI) (endpoint : String) (options : List DispatchOption) :
    ((∀ b, DispatchOption.WithMediaHost b ∉ options) →
      a.resolveURL endpoint options
        = a.APIURL ++ "/waInstance" ++ a.IDInstance ++ "/" ++ endpoint ++ "/"
            ++ a.APITokenInstance) ∧
    (∀ pre post b, options = pre ++ DispatchOption.WithMediaHost b :: post →
      (∀ b1, DispatchOption.WithMediaHost b1 ∉ post) →
      a.resolveURL endpoint options
        = (if b = true then a.MediaURL else a.APIURL) ++ "/waInstance" ++ a.IDInstance ++ "/"
            ++ endpoint ++ "/" ++ a.APITokenInstance) ∧
    ((a.resolveURL endpoint options = a.APIURL ++ "/waInstance" ++ a.IDInstance ++ "/"
          ++ endpoint ++ "/" ++ a.APITokenInstance ∨
      a.resolveURL endpoint options = a.MediaURL ++ "/waInstance" ++ a.IDInstance ++ "/"
          ++ endpoint ++ "/" ++ a.APITokenInstance) ∧
     ('?' ∉ a.APIURL.toList → '?' ∉ a.MediaURL.toList → '?' ∉ a.IDInstance.toList →
      '?' ∉ endpoint.toList → '?' ∉ a.APITokenInstance.toList →
      '?' ∉ (a.resolveURL endpoint options).toList)) ∧
    (∀ env g inv t c, (run env g inv t).2 = t ++ [c] →
      a.resolveURL c.endpoint c.options
        = (if passesMediaHost inv = true then a.MediaURL else a.APIURL) ++ "/waInstance"
            ++ a.IDInstance ++ "/" ++ c.endpoint ++ "/" ++ a.APITokenInstance) ∧
    GreenAPI.resolveURL ⟨"https://api.example.com/v3", "https://media.example.com/v3", "123",
        "tok"⟩ "getSettings" []
      = "https://api.example.com/v3/waInstance123/getSettings/tok" := by
  refine ⟨?_, ?_, ⟨?_, ?_⟩, ?_, by decide⟩
  · intro h
    have hm := foldl_apply_keeps_mediaHost options h
      { formData := false, mediaHost := false, mimetype := none }
    simp only [GreenAPI.resolveURL, resolveOptions, hm]
    simp
  · intro pre post b hopt hpost
    subst hopt
    have hm := foldl_apply_keeps_mediaHost post hpost
    simp only [GreenAPI.resolveURL, resolveOptions, List.foldl_append, List.foldl_cons]
    rw [hm]
    simp [DispatchOption.apply]
  · simp only [GreenAPI.resolveURL]
    split
    · exact Or.inr rfl
    · exact Or.inl rfl
  · intro h1 h2 h3 h4 h5
    simp only [GreenAPI.resolveURL]
    split <;> simp [String.toList, String.data_append] at * <;> simp [*]
  · intro env g inv t c
    cases inv <;>
      simp only [run, AccountCategory.GetSettings, AccountCategory.SetSettings,
        AccountCategory.GetStateInstance, AccountCategory.GetStatusInstance,
        AccountCategory.Reboot, AccountCategory.Logout, AccountCategory.StartAuthorization,
        AccountCategory.SendAuthorizationCode, AccountCategory.SetProfilePicture,
        AccountCategory.GetAccountSettings, GroupsCategory.CreateGroup,
        GroupsCategory.UpdateGroupName, GroupsCategory.GetGroupData,
        GroupsCategory.AddGroupParticipant, GroupsCategory.RemoveGroupParticipant,
        GroupsCategory.SetGroupAdmin, GroupsCategory.RemoveAdmin,
        GroupsCategory.SetGroupPicture, GroupsCategory.LeaveGroup,
        SendingCategory.SendMessage, SendingCategory.SendFileByUpload,
        SendingCategory.SendFileByUrl, SendingCategory.UploadFile,
        ServiceCategory.CheckAccount, ServiceCategory.GetAvatar, ServiceCategory.GetContacts,
        ServiceCategory.GetContactInfo, jsonMarshal, GreenAPIInterface.Request,
        passesMediaHost, Bool.false_eq_true, if_false, if_true] <;>
      (repeat' split) <;>
      simp <;>
      (intro h; subst h; simp [GreenAPI.resolveURL, resolveOptions, DispatchOption.apply])

/-- C12 at a concrete input: the dispatch options of `SendFileByUpload` resolve to the
media host. -/
theorem resolved_url_witness :
    GreenAPI.resolveURL ⟨"https://api.example.com/v3", "https://media.example.com/v3", "123",
        "tok"⟩ "sendFileByUpload" [.WithFormData true, .WithMediaHost true]
      = (if true = true then "https://media.example.com/v3" else "https://api.example.com/v3")
          ++ "/waInstance" ++ "123" ++ "/" ++ "sendFileByUpload" ++ "/" ++ "tok" :=
  (resolved_url ⟨"https://api.example.com/v3", "https://media.example.com/v3", "123", "tok"⟩
    "sendFileByUpload" [.WithFormData true, .WithMediaHost true]).2.1
    [.WithFormData true] [] true rfl (by simp)

/-! ## C13: endpoint names -/

theorem endpoint_is_lowered_method_name (env : Env) (g : GreenAPIInterface)
    (inv : Invocation) (t : Trace) (c : RequestCall)
    (hinv : ∀ phoneNumber, inv ≠ .CheckAccount phoneNumber)
    (h : (run env g inv t).2 = t ++ [c]) :
    c.endpoint = lowerFirst (methodName inv) := by
  revert h
  cases inv <;>
    simp only [run, AccountCategory.GetSettings, AccountCategory.SetSettings,
      AccountCategory.GetStateInstance, AccountCategory.GetStatusInstance,
      AccountCategory.Reboot, AccountCategory.Logout, AccountCategory.StartAuthorization,
      AccountCategory.SendAuthorizationCode, AccountCategory.SetProfilePicture,
      AccountCategory.GetAccountSettings, GroupsCategory.CreateGroup,
      GroupsCategory.UpdateGroupName, GroupsCategory.GetGroupData,
      GroupsCategory.AddGroupParticipant, GroupsCategory.RemoveGroupParticipant,
      GroupsCategory.SetGroupAdmin, GroupsCategory.RemoveAdmin,
      GroupsCategory.SetGroupPicture, GroupsCategory.LeaveGroup,
      SendingCategory.SendMessage, SendingCategory.SendFileByUpload,
      SendingCategory.SendFileByUrl, SendingCategory.UploadFile,
      ServiceCategory.CheckAccount, ServiceCategory.GetAvatar, ServiceCategory.GetContacts,
      ServiceCategory.GetContactInfo, jsonMarshal, GreenAPIInterface.Request, methodName] <;>
    (repeat' split) <;>
    simp <;>
    first
      | exact absurd rfl (hinv _)
      | (intro h; subst h; dsimp only; decide)

/-- C13 fails on the code at `CheckAccount`: the call it dispatches has the endpoint
`CheckAccount`, with a capital first letter, where the method name with its first letter
in lower case is `checkAccount` (every other operation passes its lowered method name). -/
theorem check_account_endpoint :
    (run sampleEnv sampleAPI (.CheckAccount 79001234567) []).2
      = [⟨"POST", "CheckAccount", .json [("phoneNumber", .num 79001234567)], []⟩] ∧
    lowerFirst (methodName (.CheckAccount 79001234567)) = "checkAccount" ∧
    "CheckAccount" ≠ lowerFirst (methodName (.CheckAccount 79001234567)) := by
  refine ⟨by decide, by decide, by decide⟩

/-! ## C14: which optional members a payload has -/

theorem sendMessage_args_fold (args : List SendMessageArg) (r rf : RequestSendMessage)
    (h : applyOptions (args.map SendMessageArg.option) r = (none, rf)) :
    (rf.LinkPreview ≠ none ↔
      r.LinkPreview ≠ none ∨ ∃ b, SendMessageArg.LinkPreview b ∈ args) ∧
    rf.QuotedMessageId = args.foldl
      (fun acc a =>
        match a with
        | .QuotedMessageId quotedMessageId => quotedMessageId
        | .LinkPreview _ => acc)
      r.QuotedMessageId := by
  induction args generalizing r with
  | nil =>
    simp [applyOptions] at h
    subst h
    simp
  | cons a rest ih =>
    cases a with
    | QuotedMessageId q =>
      simp only [List.map_cons, applyOptions, SendMessageArg.option,
        OptionalQuotedMessageId] at h
      obtain ⟨h1, h2⟩ := ih _ h
      refine ⟨?_, ?_⟩
      · rw [h1]; simp
      · rw [h2]; simp
    | LinkPreview b =>
      simp only [List.map_cons, applyOptions, SendMessageArg.option, OptionalLinkPreview] at h
      obtain ⟨h1, h2⟩ := ih _ h
      refine ⟨?_, ?_⟩
      · rw [h1]; simp
      · rw [h2]; simp

theorem sendMessage_hasKey (r : RequestSendMessage) :
    ((Payload.json r.encode).hasKey "linkPreview" = true ↔ r.LinkPreview ≠ none) ∧
    ((Payload.json r.encode).hasKey "quotedMessageId" = true ↔ r.QuotedMessageId ≠ "") := by
  cases hl : r.LinkPreview <;>
    by_cases hq : r.QuotedMessageId = "" <;>
    simp [Payload.hasKey, RequestSendMessage.encode, omitemptyString, omitemptyPtr, hl, hq]

theorem any_omitemptyString (key s k : String) :
    (omitemptyString key s).any (fun member => member.1 == k) = true ↔ (k = key ∧ s ≠ "") := by
  by_cases hs : s = ""
  · simp [omitemptyString, hs]
  · simp only [omitemptyString, hs, if_false, List.any_cons, List.any_nil, Bool.or_false,
      beq_iff_eq, ne_eq, not_false_eq_true, and_true]
    exact eq_comm

theorem any_omitemptyPtr {α : Type} (key k : String) (p : Option α) (enc : α → JSONValue) :
    (omitemptyPtr key p enc).any (fun member => member.1 == k) = true ↔ (k = key ∧ p ≠ none) := by
  cases p with
  | none => simp [omitemptyPtr]
  | some v =>
    simp only [omitemptyPtr, List.any_cons, List.any_nil, Bool.or_false, beq_iff_eq, ne_eq,
      reduceCtorEq, not_false_eq_true, and_true]
    exact eq_comm

theorem setSettings_hasKey (r : RequestSetSettings) (k : String) :
    (Payload.json r.encode).hasKey k = true ↔
      ((k = "webhookUrl" ∧ r.WebhookUrl ≠ none) ∨
       (k = "webhookUrlToken" ∧ r.WebhookUrlToken ≠ none) ∨
       (k = "delaySendMessagesMilliseconds" ∧ r.DelaySendMessagesMilliseconds ≠ none) ∨
       (k = "markIncomingMessagesReaded" ∧ r.MarkIncomingMessagesReaded ≠ "") ∨
       (k = "markIncomingMessagesReadedOnReply" ∧ r.MarkIncomingMessagesReadedOnReply ≠ "") ∨
       (k = "outgoingWebhook" ∧ r.OutgoingWebhook ≠ "") ∨
       (k = "outgoingMessageWebhook" ∧ r.OutgoingMessageWebhook ≠ "") ∨
       (k = "outgoingAPIMessageWebhook" ∧ r.OutgoingAPIMessageWebhook ≠ "") ∨
       (k = "stateWebhook" ∧ r.StateWebhook ≠ "") ∨
       (k = "incomingWebhook" ∧ r.IncomingWebhook ≠ "")) := by
  simp only [Payload.hasKey, RequestSetSettings.encode, List.any_append, Bool.or_eq_true,
    any_omitemptyString, any_omitemptyPtr, or_assoc]

theorem setSettings_step (env : Env) (a : SetSettingsArg) (r rf : RequestSetSettings)
    (h : a.option env r = (none, rf)) (k : String) :
    (Payload.json rf.encode).hasKey k = true ↔
      ((Payload.json r.encode).hasKey k = true ∨ k = a.key) := by
  rw [setSettings_hasKey, setSettings_hasKey]
  cases a with
  | WebhookUrl u =>
    simp only [SetSettingsArg.option, OptionalWebhookUrl] at h
    cases hv : env.ValidateURL u with
    | some e => simp [hv] at h
    | none =>
      simp only [hv, Prod.mk.injEq, true_and] at h
      subst h
      by_cases hk : k = "webhookUrl" <;> simp [SetSettingsArg.key, hk]
  | WebhookUrlToken u =>
    simp only [SetSettingsArg.option, OptionalWebhookUrlToken, Prod.mk.injEq, true_and] at h
    subst h
    by_cases hk : k = "webhookUrlToken" <;> simp [SetSettingsArg.key, hk]
  | DelaySendMessages n =>
    simp only [SetSettingsArg.option, OptionalDelaySendMessages, Prod.mk.injEq, true_and] at h
    subst h
    by_cases hk : k = "delaySendMessagesMilliseconds" <;> simp [SetSettingsArg.key, hk]
  | MarkIncomingMessagesRead b =>
    simp only [SetSettingsArg.option, OptionalMarkIncomingMessagesRead] at h
    cases b <;> simp only [Bool.false_eq_true, if_false, if_true, Prod.mk.injEq, true_and] at h <;>
      subst h <;>
      by_cases hk : k = "markIncomingMessagesReaded" <;>
      simp [SetSettingsArg.key, hk]
  | MarkIncomingMessagesReadOnReply b =>
    simp only [SetSettingsArg.option, OptionalMarkIncomingMessagesReadOnReply] at h
    cases b <;> simp only [Bool.false_eq_true, if_false, if_true, Prod.mk.injEq, true_and] at h <;>
      subst h <;>
      by_cases hk : k = "markIncomingMessagesReadedOnReply" <;>
      simp [SetSettingsArg.key, hk]
  | OutgoingWebhook b =>
    simp only [SetSettingsArg.option, OptionalOutgoingWebhook] at h
    cases b <;> simp only [Bool.false_eq_true, if_false, if_true, Prod.mk.injEq, true_and] at h <;>
      subst h <;>
      by_cases hk : k = "outgoingWebhook" <;>
      simp [SetSettingsArg.key, hk]
  | OutgoingMessageWebhook b =>
    simp only [SetSettingsArg.option, OptionalOutgoingMessageWebhook] at h
    cases b <;> simp only [Bool.false_eq_true, if_false, if_true, Prod.mk.injEq, true_and] at h <;>
      subst h <;>
      by_cases hk : k = "outgoingMessageWebhook" <;>
      simp [SetSettingsArg.key, hk]
  | OutgoingAPIMessageWebhook b =>
    simp only [SetSettingsArg.option, OptionalOutgoingAPIMessageWebhook] at h
    cases b <;> simp only [Bool.false_eq_true, if_false, if_true, Prod.mk.injEq, true_and] at h <;>
      subst h <;>
      by_cases hk : k = "outgoingAPIMessageWebhook" <;>
      simp [SetSettingsArg.key, hk]
  | StateWebhook b =>
    simp only [SetSettingsArg.option, OptionalStateWebhook] at h
    cases b <;> simp only [Bool.false_eq_true, if_false, if_true, Prod.mk.injEq, true_and] at h <;>
      subst h <;>
      by_cases hk : k = "stateWebhook" <;>
      simp [SetSettingsArg.key, hk]
  | IncomingWebhook b =>
    simp only [SetSettingsArg.option, OptionalIncomingWebhook] at h
    cases b <;> simp only [Bool.false_eq_true, if_false, if_true, Prod.mk.injEq, true_and] at h <;>
      subst h <;>
      by_cases hk : k = "incomingWebhook" <;>
      simp [SetSettingsArg.key, hk]

theorem setSettings_args_keys (env : Env) (args : List SetSettingsArg)
    (r rf : RequestSetSettings)
    (h : applyOptions (args.map (SetSettingsArg.option env)) r = (none, rf)) (k : String) :
    (Payload.json rf.encode).hasKey k = true ↔
      ((Payload.json r.encode).hasKey k = true ∨ ∃ a ∈ args, k = a.key) := by
  induction args generalizing r with
  | nil =>
    simp [applyOptions] at h
    subst h
    simp
  | cons a rest ih =>
    simp only [List.map_cons, applyOptions] at h
    cases ha : a.option env r with
    | mk err r1 =>
      cases err with
      | some e => simp [ha] at h
      | none =>
        simp only [ha] at h
        rw [ih r1 h, setSettings_step env a r r1 ha k]
        simp only [List.mem_cons, exists_eq_or_imp, or_assoc]

/-- C14 as stated fails at `SendMessage` with `OptionalQuotedMessageId("")`: the option is
applied, and the dispatched payload has the members `chatId` and `message` only, no
`quotedMessageId` (the field is a plain string tagged `omitempty`). -/
theorem empty_quoted_id_is_left_out :
    (run sampleEnv sampleAPI (.SendMessage "10000000" "Hello" [OptionalQuotedMessageId ""])
        []).2
      = [⟨"POST", "sendMessage",
          .json [("chatId", .str "10000000"), ("message", .str "Hello")], []⟩] ∧
    (Payload.json [("chatId", .str "10000000"), ("message", .str "Hello")]).hasKey
      "quotedMessageId" = false := by
  refine ⟨by decide, by decide⟩

/-- C14, amended: in the payload `SendMessage` dispatches, `linkPreview` is present exactly
when `OptionalLinkPreview` was applied (`OptionalLinkPreview(false)` yields
`"linkPreview":false`), and `quotedMessageId` is present exactly when the last
`OptionalQuotedMessageId` applied has a non-empty argument (an empty id is left out like
an id never given); in the payload `SetSettings` dispatches, each key is present exactly
when its option was applied (`OptionalDelaySendMessages(0)` yields 0,
`OptionalWebhookUrlToken("")` yields the empty string), and `SetSettings` without options
dispatches the empty JSON object. -/
theorem optional_members (env : Env) (g : GreenAPIInterface) (t : Trace) :
    (∀ chatId message (args : List SendMessageArg) c,
      (SendingCategory.SendMessage env ⟨g⟩ chatId message (args.map SendMessageArg.option)
        t).2 = t ++ [c] →
      (c.payload.hasKey "linkPreview" = true ↔ ∃ b, SendMessageArg.LinkPreview b ∈ args) ∧
      (c.payload.hasKey "quotedMessageId" = true ↔ lastQuotedMessageId args ≠ "")) ∧
    (∀ chatId message, env.ValidateChatId [chatId] = none →
      env.ValidateMessageLength message 20000 = none →
      (SendingCategory.SendMessage env ⟨g⟩ chatId message [OptionalLinkPreview false] t).2
        = t ++ [⟨"POST", "sendMessage",
            .json [("chatId", .str chatId), ("message", .str message),
                   ("linkPreview", .bool false)], []⟩]) ∧
    (∀ (args : List SetSettingsArg) c,
      (AccountCategory.SetSettings ⟨g⟩ (args.map (SetSettingsArg.option env)) t).2
        = t ++ [c] →
      ∀ k, c.payload.hasKey k = true ↔ ∃ a ∈ args, a.key = k) ∧
    (AccountCategory.SetSettings ⟨g⟩ [OptionalDelaySendMessages 0] t).2
      = t ++ [⟨"POST", "setSettings",
          .json [("delaySendMessagesMilliseconds", .num 0)], []⟩] ∧
    (AccountCategory.SetSettings ⟨g⟩ [OptionalWebhookUrlToken ""] t).2
      = t ++ [⟨"POST", "setSettings", .json [("webhookUrlToken", .str "")], []⟩] ∧
    (AccountCategory.SetSettings ⟨g⟩ [] t).2 = t ++ [⟨"POST", "setSettings", .json [], []⟩] := by
  refine ⟨?_, ?_, ?_, ?_, ?_, ?_⟩
  · intro chatId message args c h
    simp only [SendingCategory.SendMessage, jsonMarshal, GreenAPIInterface.Request] at h
    repeat' split at h
    all_goals first
      | (simp at h; done)
      | (rename_i r1 hr1
         simp only [List.append_cancel_left_eq, List.cons.injEq, and_true] at h
         subst h
         obtain ⟨h1, h2⟩ := sendMessage_args_fold args _ r1 hr1
         obtain ⟨k1, k2⟩ := sendMessage_hasKey r1
         refine ⟨?_, ?_⟩
         · rw [k1, h1]; simp
         · rw [k2, h2]; rfl)
  · intro chatId message hc hm
    simp [SendingCategory.SendMessage, hc, hm, applyOptions, OptionalLinkPreview, jsonMarshal,
      GreenAPIInterface.Request, RequestSendMessage.encode, omitemptyString, omitemptyPtr]
  · intro args c h k
    simp only [AccountCategory.SetSettings, jsonMarshal, GreenAPIInterface.Request] at h
    repeat' split at h
    all_goals first
      | (simp at h; done)
      | (rename_i r1 hr1
         simp only [List.append_cancel_left_eq, List.cons.injEq, and_true] at h
         subst h
         rw [setSettings_args_keys env args _ r1 hr1 k, setSettings_hasKey]
         simp [RequestSetSettings.zero, eq_comm])
  · simp [AccountCategory.SetSettings, applyOptions, OptionalDelaySendMessages, jsonMarshal,
      GreenAPIInterface.Request, RequestSetSettings.encode, RequestSetSettings.zero,
      omitemptyString, omitemptyPtr]
  · simp [AccountCategory.SetSettings, applyOptions, OptionalWebhookUrlToken, jsonMarshal,
      GreenAPIInterface.Request, RequestSetSettings.encode, RequestSetSettings.zero,
      omitemptyString, omitemptyPtr]
  · simp [AccountCategory.SetSettings, applyOptions, jsonMarshal,
      GreenAPIInterface.Request, RequestSetSettings.encode, RequestSetSettings.zero,
      omitemptyString, omitemptyPtr]

/-- C14, amended, at a concrete input: `SendMessage` with `OptionalLinkPreview(false)`,
as in the example program. -/
theorem optional_members_witness :
    ((Payload.json [("chatId", .str "10000000"), ("message", .str "Hello"),
        ("linkPreview", .bool false)]).hasKey "linkPreview" = true
      ↔ ∃ b, SendMessageArg.LinkPreview b ∈ [SendMessageArg.LinkPreview false]) ∧
    ((Payload.json [("chatId", .str "10000000"), ("message", .str "Hello"),
        ("linkPreview", .bool false)]).hasKey "quotedMessageId" = true
      ↔ lastQuotedMessageId [SendMessageArg.LinkPreview false] ≠ "") :=
  (optional_members sampleEnv sampleAPI []).1 "10000000" "Hello" [.LinkPreview false]
    ⟨"POST", "sendMessage",
      .json [("chatId", .str "10000000"), ("message", .str "Hello"),
        ("linkPreview", .bool false)], []⟩
    (by decide)

end GreenAPI
